import Mathlib

/-!
# core2dump: the graph visitor (`src/visitor.c`)

A shallow embedding of the worklist traversal of `visitor.c` and the properties
of it that the specification states.

Modelling choices (all of them forced by what `visitor.c` includes but does not
define: `common.h`, `error.h`, `queue.h`, `state.h`, `v8helpers.h`,
`v8constants.h`):

* The core image is a finite array of words, `cd_obj_t.mem`, indexed by address.
  `mem[a]` is the pointer-sized word read at address `a`; a `uint8_t` read at `a`
  is its low byte. `V8_CORE_PTR (ptr, off)` resolves `ptr + off` and fails when the
  address lies outside the image.
* An intrusive `QUEUE` is a list. A queued `cd_node_t` has only its `obj` field
  initialised (`cd_queue_ptr`), so the work queue is a list of addresses; the
  finished list holds the fields `cd_add_node` assigns.
* The constants of `v8constants.h`, the heap-object shape test, the size oracle,
  the string helpers and the allocator are parameters, gathered in `cd_v8_t`.
* `malloc` is an oracle on the number of allocations made so far
  (`cd_state_t.mallocs`), so every pattern of allocation failures is covered.
* `int` counters and pointer arithmetic are unbounded (`Nat`, `Int`): signed
  overflow is undefined in C and needs more than `2^31` nodes.
-/

namespace Core2Dump

/-- Modelled from the spec: `error.h` is missing. The error codes that `visitor.c`
produces (the spec's `OutOfMemory`, `NotAnObject`, `AlreadyVisited`). `kCDErrNotFound` is
the failure of `V8_CORE_PTR`, the spec's `ImageReadFailure` (an address the image does not hold);
`kCDErrOther` is any further code a helper may return. -/
inductive cd_error_code where
  | kCDErrNoMem
  | kCDErrNotObject
  | kCDErrAlreadyVisited
  | kCDErrNotFound
  | kCDErrOther (code : Nat)
  deriving DecidableEq, Repr

/-- Modelled from the spec: `error.h` is missing. The type `cd_error_t`: either
`cd_ok()` or an error with its code. -/
inductive cd_error_t where
  | ok
  | error (code : cd_error_code)
  deriving DecidableEq, Repr

/-- The constructor `cd_ok()`. -/
def cd_ok : cd_error_t := cd_error_t.ok

/-- The constructors `cd_error(code)` and `cd_error_str(code, str)`. -/
def cd_error (code : cd_error_code) : cd_error_t := cd_error_t.error code

/-- The test `cd_is_ok(err)`. -/
def cd_is_ok : cd_error_t → Bool
  | cd_error_t.ok => true
  | cd_error_t.error _ => false

/-- The enum `cd_node_type_e` of `visitor.h`. -/
inductive cd_node_type_t where
  | kCDNodeHidden
  | kCDNodeArray
  | kCDNodeString
  | kCDNodeObject
  | kCDNodeCode
  | kCDNodeClosure
  | kCDNodeRegExp
  | kCDNodeNumber
  | kCDNodeNative
  | kCDNodeSynthetic
  | kCDNodeConString
  | kCDNodeSlicedString
  deriving DecidableEq, Repr

/-- The enum `cd_edge_type_e` of `visitor.h`. -/
inductive cd_edge_type_t where
  | kCDEdgeContext
  | kCDEdgeElement
  | kCDEdgeProperty
  | kCDEdgeInternal
  | kCDEdgeHidden
  | kCDEdgeShortcut
  | kCDEdgeWeak
  deriving DecidableEq, Repr

/-- The struct `cd_edge_s` of `visitor.h`: `key_from` and `key_to` are the object
addresses of the nodes that `key.from` and `key.to` point to. -/
structure cd_edge_t where
  type : cd_edge_type_t
  key_from : Nat
  key_to : Nat
  name : Int
  deriving DecidableEq, Repr

/-- The member `edges` of `struct cd_node_s`: the two relation lists and the
count of outgoing edges. -/
structure cd_node_edges_t where
  incoming : List cd_edge_t
  outgoing : List cd_edge_t
  outgoing_count : Int
  deriving DecidableEq, Repr

/-- The fields of `struct cd_node_s` that `visitor.c` assigns: `obj` in
`cd_queue_ptr`, the others in `cd_add_node`. (`map` and `v8_type` are never
written by `visitor.c` and are left out.) The member `edges` is `none` as long
as it is what `malloc` left: no line of `visitor.c` initialises or writes it. -/
structure cd_node_t where
  obj : Nat
  type : cd_node_type_t
  id : Nat
  name : Int
  size : Int
  edges : Option cd_node_edges_t := none
  deriving DecidableEq, Repr

/-- Modelled from the spec: the declaration of `cd_obj_t` is missing. The core
image `state->core`: its architecture flag (`cd_obj_is_x64`) and its words by
address, a finite image read through the Memory Reader. -/
structure cd_obj_t where
  is_x64 : Bool
  mem : List Nat
  deriving DecidableEq, Repr

/-- Modelled from the spec: `state.h` is missing. The traversal state `cd_state_t`
with the fields `visitor.c` uses (work queue, finished list, node counter, zap bit,
pointer width, image, string table). `mallocs` counts the calls of `malloc` made
so far. -/
structure cd_state_t where
  core : cd_obj_t
  strings : List String
  queue : List Nat
  nodes : List cd_node_t
  node_count : Nat
  zap_bit : Nat
  ptr_size : Int
  mallocs : Nat
  deriving DecidableEq, Repr

/-- What `visitor.c` takes from the headers that are not part of it: the offsets
and type tags of `v8constants.h` (`CD_V8_TYPE(A, B)` is `cd_v8_type_A__B_TYPE`),
the macro `V8_IS_HEAPOBJECT`, the helpers `cd_v8_get_obj_size` and `cd_v8_to_cstr`
of `v8helpers.h` (they read the image), `cd_strings_copy` of the string table
(both string helpers give the interned index and the new table), and `malloc`
(whether the `n`-th allocation succeeds). -/
structure cd_v8_t where
  cd_v8_class_HeapObject__map__Map : Int
  cd_v8_class_Map__instance_attributes__int : Int
  cd_v8_class_JSObject__properties__FixedArray : Int
  cd_v8_class_JSFunction__shared__SharedFunctionInfo : Int
  cd_v8_class_SharedFunctionInfo__name__Object : Int
  cd_v8_FirstNonstringType : Int
  cd_v8_type_JSObject__JS_OBJECT_TYPE : Int
  cd_v8_type_JSValue__JS_VALUE_TYPE : Int
  cd_v8_type_JSDate__JS_DATE_TYPE : Int
  cd_v8_type_JSArray__JS_ARRAY_TYPE : Int
  cd_v8_type_JSArrayBuffer__JS_ARRAY_BUFFER_TYPE : Int
  cd_v8_type_JSTypedArray__JS_TYPED_ARRAY_TYPE : Int
  cd_v8_type_JSDataView__JS_DATA_VIEW_TYPE : Int
  cd_v8_type_JSRegExp__JS_REGEXP_TYPE : Int
  cd_v8_type_JSGlobalObject__JS_GLOBAL_OBJECT_TYPE : Int
  cd_v8_type_JSBuiltinsObject__JS_BUILTINS_OBJECT_TYPE : Int
  cd_v8_type_JSMessageObject__JS_MESSAGE_OBJECT_TYPE : Int
  cd_v8_type_JSFunction__JS_FUNCTION_TYPE : Int
  cd_v8_type_Map__MAP_TYPE : Int
  V8_IS_HEAPOBJECT : Nat → Bool
  cd_v8_get_obj_size : cd_obj_t → Nat → Int → Except cd_error_code Int
  cd_v8_to_cstr : cd_obj_t → List String → Nat → Except cd_error_code (Int × List String)
  cd_strings_copy : List String → String → Except cd_error_code (Int × List String)
  malloc : Nat → Bool

/-- Modelled from the spec: `v8helpers.h` is missing. The macro
`V8_CORE_PTR(ptr, off, out)`, the Memory Reader's `read_pointer(addr, offset)`:
the place of address `ptr + off` in the image, or `none` (the macro then returns an error from the enclosing
function) when the image does not hold that address. -/
def V8_CORE_PTR (state : cd_state_t) (ptr : Nat) (off : Int) : Option Nat :=
  if 0 ≤ (ptr : Int) + off ∧ (ptr : Int) + off < (state.core.mem.length : Int) then
    some ((ptr : Int) + off).toNat
  else
    none

/-- The read `*p` of a pointer-sized word through a resolved pointer. -/
def core_read (state : cd_state_t) (p : Nat) : Nat :=
  state.core.mem.getD p 0

/-- The write `*p = v` of a pointer-sized word through a resolved pointer. -/
def core_write (state : cd_state_t) (p : Nat) (v : Nat) : cd_state_t :=
  { state with core := { state.core with mem := state.core.mem.set p v } }

/-- The state with its work queue replaced by `queue` (`QUEUE_REMOVE` of the head
leaves the tail). -/
def set_queue (state : cd_state_t) (queue : List Nat) : cd_state_t :=
  { state with queue := queue }

/-- The function `cd_visitor_init`. -/
def cd_visitor_init (state : cd_state_t) : cd_error_t × cd_state_t :=
  (cd_ok, { state with nodes := [], node_count := 0 })

/-- The function `cd_queue_ptr`. -/
def cd_queue_ptr (v8 : cd_v8_t) (state : cd_state_t) (ptr : Nat) : cd_error_t × cd_state_t :=
  if !v8.V8_IS_HEAPOBJECT ptr then
    (cd_error cd_error_code.kCDErrNotObject, state)
  else if !v8.malloc state.mallocs then
    (cd_error cd_error_code.kCDErrNoMem, { state with mallocs := state.mallocs + 1 })
  else
    (cd_ok, { state with mallocs := state.mallocs + 1, queue := state.queue ++ [ptr] })

/-- The step of the loop of `cd_queue_space`:
`delta = cd_obj_is_x64(state->core) ? 8 : 4`. -/
def cd_queue_space_delta (state : cd_state_t) : Nat :=
  if state.core.is_x64 then 8 else 4

/-- The loop of `cd_queue_space`, `for (; start < end; start += delta)`, run for
at most the given number of iterations. -/
def cd_queue_space_loop (v8 : cd_v8_t) (delta : Nat) :
    Nat → cd_state_t → Nat → Nat → cd_error_t × cd_state_t
  | 0, state, _, _ => (cd_ok, state)
  | n + 1, state, start, end_ =>
    if start < end_ then
      let r := cd_queue_ptr v8 state (core_read state start)
      if !cd_is_ok r.1 then r
      else cd_queue_space_loop v8 delta n r.2 (start + delta) end_
    else
      (cd_ok, state)

/-- The function `cd_queue_space`. Every iteration advances `start` by `delta`,
which is 4 or 8, so the loop makes at most `end - start` iterations and the bound
given to `cd_queue_space_loop` is never what ends it (`cd_queue_space_unfold`). -/
def cd_queue_space (v8 : cd_v8_t) (state : cd_state_t) (start end_ : Nat) :
    cd_error_t × cd_state_t :=
  let delta := cd_queue_space_delta state
  cd_queue_space_loop v8 delta (end_ - start) state start end_

/-- The tail of `cd_add_node` after the name is resolved: size, id, append. -/
def cd_add_node_finish (v8 : cd_v8_t) (state : cd_state_t) (obj map : Nat) (type : Int)
    (kind : cd_node_type_t) (name : Int) : cd_error_t × cd_state_t :=
  match v8.cd_v8_get_obj_size state.core map type with
  | Except.error e => (cd_error e, state)
  | Except.ok size =>
    (cd_ok, { state with
      node_count := state.node_count + 1,
      nodes := state.nodes ++
        [{ obj := obj, type := kind, id := state.node_count, name := name, size := size }] })

/-- The function `cd_add_node`. -/
def cd_add_node (v8 : cd_v8_t) (state : cd_state_t) (obj map : Nat) (type : Int) :
    cd_error_t × cd_state_t :=
  if type = v8.cd_v8_type_JSFunction__JS_FUNCTION_TYPE then
    match V8_CORE_PTR state obj v8.cd_v8_class_JSFunction__shared__SharedFunctionInfo with
    | none => (cd_error cd_error_code.kCDErrNotFound, state)
    | some ptr =>
      let sh := core_read state ptr
      match V8_CORE_PTR state sh v8.cd_v8_class_SharedFunctionInfo__name__Object with
      | none => (cd_error cd_error_code.kCDErrNotFound, state)
      | some ptr2 =>
        let name := core_read state ptr2
        match v8.cd_v8_to_cstr state.core state.strings name with
        | Except.error e => (cd_error e, state)
        | Except.ok (idx, strings) =>
          cd_add_node_finish v8 { state with strings := strings } obj map type
            cd_node_type_t.kCDNodeClosure idx
  else
    match v8.cd_strings_copy state.strings "" with
    | Except.error e => (cd_error e, state)
    | Except.ok (idx, strings) =>
      cd_add_node_finish v8 { state with strings := strings } obj map type
        cd_node_type_t.kCDNodeHidden idx

/-- The test of lines 98 to 110 of `visitor.c`: `type` is one of the twelve
general-object tags. -/
def is_general_object (v8 : cd_v8_t) (type : Int) : Bool :=
  type = v8.cd_v8_type_JSObject__JS_OBJECT_TYPE ||
  type = v8.cd_v8_type_JSValue__JS_VALUE_TYPE ||
  type = v8.cd_v8_type_JSDate__JS_DATE_TYPE ||
  type = v8.cd_v8_type_JSArray__JS_ARRAY_TYPE ||
  type = v8.cd_v8_type_JSArrayBuffer__JS_ARRAY_BUFFER_TYPE ||
  type = v8.cd_v8_type_JSTypedArray__JS_TYPED_ARRAY_TYPE ||
  type = v8.cd_v8_type_JSDataView__JS_DATA_VIEW_TYPE ||
  type = v8.cd_v8_type_JSRegExp__JS_REGEXP_TYPE ||
  type = v8.cd_v8_type_JSGlobalObject__JS_GLOBAL_OBJECT_TYPE ||
  type = v8.cd_v8_type_JSBuiltinsObject__JS_BUILTINS_OBJECT_TYPE ||
  type = v8.cd_v8_type_JSMessageObject__JS_MESSAGE_OBJECT_TYPE ||
  type = v8.cd_v8_type_JSFunction__JS_FUNCTION_TYPE

/-- The part of `cd_visit_root` below `/* Load object type */` (lines 85 to 140):
classify by type tag, scan the child range, add the node. -/
def cd_visit_root_body (v8 : cd_v8_t) (state : cd_state_t) (obj map : Nat) :
    cd_error_t × cd_state_t :=
  match V8_CORE_PTR state map v8.cd_v8_class_Map__instance_attributes__int with
  | none => (cd_error cd_error_code.kCDErrNotFound, state)
  | some ptype =>
    let type : Int := ((core_read state ptype % 256 : Nat) : Int)
    if type < v8.cd_v8_FirstNonstringType then
      cd_add_node v8 state obj map type
    else if is_general_object v8 type then
      match v8.cd_v8_get_obj_size state.core map type with
      | Except.error e => (cd_error e, state)
      | Except.ok size =>
        let off := v8.cd_v8_class_JSObject__properties__FixedArray
        match V8_CORE_PTR state obj off with
        | none => (cd_error cd_error_code.kCDErrNotFound, state)
        | some start =>
          match V8_CORE_PTR state obj (off + size) with
          | none => (cd_error cd_error_code.kCDErrNotFound, state)
          | some end_ =>
            cd_add_node v8 (cd_queue_space v8 state start end_).2 obj map type
    else if type = v8.cd_v8_type_Map__MAP_TYPE then
      let off := v8.cd_v8_class_Map__instance_attributes__int + 4
      match V8_CORE_PTR state obj off with
      | none => (cd_error cd_error_code.kCDErrNotFound, state)
      | some start =>
        match V8_CORE_PTR state obj (off + state.ptr_size * 2) with
        | none => (cd_error cd_error_code.kCDErrNotFound, state)
        | some end_ =>
          cd_add_node v8 (cd_queue_space v8 state start end_).2 obj map type
    else
      cd_add_node v8 state obj map type

/-- The function `cd_visit_root`, on the candidate whose `obj` field is `obj`.
A resolved pointer is never `NULL`, so the test `start != NULL && end != NULL`
holds whenever it is reached. -/
def cd_visit_root (v8 : cd_v8_t) (state : cd_state_t) (obj : Nat) : cd_error_t × cd_state_t :=
  match V8_CORE_PTR state obj v8.cd_v8_class_HeapObject__map__Map with
  | none => (cd_error cd_error_code.kCDErrNotFound, state)
  | some pmap =>
    let map := core_read state pmap
    if map &&& state.zap_bit = state.zap_bit then
      (cd_error cd_error_code.kCDErrAlreadyVisited, state)
    else
      let state1 := core_write state pmap (map ||| state.zap_bit)
      let r := cd_queue_ptr v8 state1 map
      if !cd_is_ok r.1 then r
      else cd_visit_root_body v8 r.2 obj map

/-- Lines 75 to 81 of `visitor.c`, after the zap test: the map field at `pmap` is
zapped and the map pointer is queued. -/
def cd_visit_root_mark (v8 : cd_v8_t) (state : cd_state_t) (pmap : Nat) :
    cd_error_t × cd_state_t :=
  cd_queue_ptr v8 (core_write state pmap (core_read state pmap ||| state.zap_bit))
    (core_read state pmap)

/-- One iteration of the loop of `cd_visit_roots`: take the head of the work
queue off and visit it (the candidate is freed or moved to `nodes`). -/
def cd_visit_roots_step (v8 : cd_v8_t) (state : cd_state_t) : cd_state_t :=
  match state.queue with
  | [] => state
  | obj :: rest => (cd_visit_root v8 (set_queue state rest) obj).2

/-- The number of words of the image that do not carry the zap bit. -/
def unmarked (state : cd_state_t) : Nat :=
  state.core.mem.countP (fun w => !decide (w &&& state.zap_bit = state.zap_bit))

/-! ## A concrete layout and images for the examples -/

/-- A string table for the examples: the index of `s`, which is appended when new. -/
def demo_strings_copy (strings : List String) (s : String) :
    Except cd_error_code (Int × List String) :=
  if s ∈ strings then Except.ok ((strings.indexOf s : Nat), strings)
  else Except.ok ((strings.length : Nat), strings ++ [s])

/-- A string decoder for the examples: a string object at address `name` holds
its length at `name + 4` and one character per word from `name + 8` on. -/
def demo_to_cstr (core : cd_obj_t) (strings : List String) (name : Nat) :
    Except cd_error_code (Int × List String) :=
  if name ≠ 0 ∧ name % 4 = 0 then
    demo_strings_copy strings (String.mk ((List.range (core.mem.getD (name + 4) 0)).map
      (fun i => Char.ofNat (core.mem.getD (name + 8 + 4 * i) 0))))
  else Except.error (cd_error_code.kCDErrOther 0)

/-- The parameters of the examples: a 32-bit layout in which a heap pointer is a
non-null multiple of 4, an object starts with its map pointer, a map holds its
instance size in its second word and its type tag in its third, and the
allocator never fails. -/
def demo_v8 : cd_v8_t where
  cd_v8_class_HeapObject__map__Map := 0
  cd_v8_class_Map__instance_attributes__int := 8
  cd_v8_class_JSObject__properties__FixedArray := 4
  cd_v8_class_JSFunction__shared__SharedFunctionInfo := 12
  cd_v8_class_SharedFunctionInfo__name__Object := 4
  cd_v8_FirstNonstringType := 128
  cd_v8_type_JSObject__JS_OBJECT_TYPE := 160
  cd_v8_type_JSValue__JS_VALUE_TYPE := 161
  cd_v8_type_JSDate__JS_DATE_TYPE := 162
  cd_v8_type_JSArray__JS_ARRAY_TYPE := 163
  cd_v8_type_JSArrayBuffer__JS_ARRAY_BUFFER_TYPE := 164
  cd_v8_type_JSTypedArray__JS_TYPED_ARRAY_TYPE := 165
  cd_v8_type_JSDataView__JS_DATA_VIEW_TYPE := 166
  cd_v8_type_JSRegExp__JS_REGEXP_TYPE := 167
  cd_v8_type_JSGlobalObject__JS_GLOBAL_OBJECT_TYPE := 168
  cd_v8_type_JSBuiltinsObject__JS_BUILTINS_OBJECT_TYPE := 169
  cd_v8_type_JSMessageObject__JS_MESSAGE_OBJECT_TYPE := 170
  cd_v8_type_JSFunction__JS_FUNCTION_TYPE := 171
  cd_v8_type_Map__MAP_TYPE := 129
  V8_IS_HEAPOBJECT := fun p => p != 0 && p % 4 == 0
  cd_v8_get_obj_size := fun core map _ => Except.ok ((core.mem.getD (map + 4) 0 : Nat) : Int)
  cd_v8_to_cstr := demo_to_cstr
  cd_strings_copy := demo_strings_copy
  malloc := fun _ => true

/-- The parameters `demo_v8` with an allocator whose first allocation fails. -/
def oom_v8 : cd_v8_t :=
  { demo_v8 with malloc := fun n => n != 0 }

/-- The parameters `demo_v8` with a size oracle that fails for the string types. -/
def nosize_v8 : cd_v8_t :=
  { demo_v8 with
    cd_v8_get_obj_size := fun core map type =>
      if type < 128 then Except.error (cd_error_code.kCDErrOther 1)
      else Except.ok ((core.mem.getD (map + 4) 0 : Nat) : Int) }

/-- A 32-bit image of `size` words that holds the listed words and zero elsewhere. -/
def demo_image (size : Nat) (words : List (Nat × Nat)) : cd_obj_t :=
  { is_x64 := false, mem := (List.range size).map (fun a => (words.lookup a).getD 0) }

/-- A state over `core` with work queue `queue`, nothing finished yet, zap bit 2
and pointer width 4. -/
def demo_state (core : cd_obj_t) (queue : List Nat) : cd_state_t :=
  { core := core, strings := [], queue := queue, nodes := [], node_count := 0,
    zap_bit := 2, ptr_size := 4, mallocs := 0 }

/-- The diamond `root -> A, root -> B, A -> C, B -> C`: the meta map at 16, the
map of the four objects at 40 (type `JS_OBJECT`, instance size 12: the map word
and two property slots), `root` at 64, `A` at 80, `B` at 96 and `C` at 112. -/
def diamond_core : cd_obj_t :=
  demo_image 132
    [(16, 16), (20, 20), (24, 129),
     (40, 16), (44, 12), (48, 160),
     (64, 40), (68, 80), (72, 96),
     (80, 40), (84, 112),
     (96, 40), (100, 112),
     (112, 40)]

/-- A function object at 64 whose shared-metadata record is at 96 and whose name
is the string at 112, of length 3 and characters `f`, `o`, `o`; the function map
is at 40 (type `JS_FUNCTION`, instance size 16), the meta map at 16. -/
def foo_core : cd_obj_t :=
  demo_image 140
    [(16, 16), (20, 20), (24, 129),
     (40, 16), (44, 16), (48, 171),
     (64, 40), (76, 96),
     (100, 112),
     (116, 3), (120, 102), (124, 111), (128, 111)]

/-- An object at 64 (map at 40, type `JS_OBJECT`, instance size 12) whose first
property slot holds the small integer 0 and whose second holds the address 96
of another object. -/
def gap_core : cd_obj_t :=
  demo_image 132
    [(16, 16), (20, 20), (24, 129),
     (40, 16), (44, 12), (48, 160),
     (64, 40), (68, 0), (72, 96),
     (96, 40)]

/-- An object at 64 (map at 40, type `JS_OBJECT`, instance size 12, so the object
is the words at 64, 68 and 72) with property slots 80 and 96, followed at 76 by a
word that is not part of it and holds the address 112. -/
def overrun_core : cd_obj_t :=
  demo_image 132
    [(16, 16), (20, 20), (24, 129),
     (40, 16), (44, 12), (48, 160),
     (64, 40), (68, 80), (72, 96),
     (76, 112),
     (80, 40), (96, 40), (112, 40)]

/-- A map at 40 (its own map is the meta map at 16, of type `MAP`) whose
constructor slot, at 52, holds the small integer 0 and whose prototype slot, at
56, holds the address 64 of an object. -/
def proto_core : cd_obj_t :=
  demo_image 132
    [(16, 16), (20, 20), (24, 129),
     (40, 16), (44, 12), (48, 160), (52, 0), (56, 64),
     (64, 40)]

/-- A function object at 64 (map at 40, type `JS_FUNCTION`) whose
shared-metadata pointer, at 76, holds 1000, an address outside the image. -/
def nameless_core : cd_obj_t :=
  demo_image 132
    [(16, 16), (20, 20), (24, 129),
     (40, 16), (44, 16), (48, 171),
     (64, 40), (76, 1000)]

/-- The diamond image with one more word: the word at the address 66, which is
not a multiple of 4 and so fails the shape test, holds the map pointer 40. -/
def misaligned_core : cd_obj_t :=
  demo_image 132
    [(16, 16), (20, 20), (24, 129),
     (40, 16), (44, 12), (48, 160),
     (64, 40), (66, 40), (68, 80), (72, 96),
     (80, 40), (84, 112),
     (96, 40), (100, 112),
     (112, 40)]

/-- An object X at 64 (map at 40, type `JS_OBJECT`, instance size 12) whose first
property slot, at 68, holds 64, the address of X itself, and whose other words
hold the small integer 0. -/
def cycle_core : cd_obj_t :=
  demo_image 132
    [(16, 16), (20, 20), (24, 129),
     (40, 16), (44, 12), (48, 160),
     (64, 40), (68, 64)]

/-- A string object at 64: its map, at 40, has the type tag 5, below
`FirstNonstringType`, and instance size 12. -/
def string_core : cd_obj_t :=
  demo_image 132
    [(16, 16), (20, 20), (24, 129),
     (40, 16), (44, 12), (48, 5),
     (64, 40), (68, 80), (72, 96)]

/-- A function object X at 64 (map at 40, type `JS_FUNCTION`, instance size 16)
whose first slot, at 68, holds 64, the address of X itself, and whose other
words, the shared-metadata pointer at 76 among them, hold the small integer 0. -/
def cycle_fn_core : cd_obj_t :=
  demo_image 132
    [(16, 16), (20, 20), (24, 129),
     (40, 16), (44, 16), (48, 171),
     (64, 40), (68, 64)]

/-! ## Predicates used in the proofs -/

/-- The state `st'` has the image, the zap bit and the pointer width of `st`, and
its work queue continues the queue of `st`. -/
structure Frame (st st' : cd_state_t) : Prop where
  core : st'.core = st.core
  zap_bit : st'.zap_bit = st.zap_bit
  ptr_size : st'.ptr_size = st.ptr_size
  queue : st.queue <+: st'.queue

/-- The finished nodes carry the ids `0, 1, 2, ...` in list order, and
`node_count` is the length of the finished list. -/
def Sequential (st : cd_state_t) : Prop :=
  st.nodes.map (fun n => n.id) = List.range st.nodes.length ∧ st.node_count = st.nodes.length

/-- The words that the loop `for (; start < end; start += delta)` of
`cd_queue_space` finds in the range, in ascending address order (at most the
given number of them). -/
def child_words (state : cd_state_t) (delta : Nat) : Nat → Nat → Nat → List Nat
  | 0, _, _ => []
  | n + 1, start, end_ =>
    if start < end_ then core_read state start :: child_words state delta n (start + delta) end_
    else []

/-- Every address in the work queue and every address of a finished node passes
the heap-object shape test. -/
def AllShaped (v8 : cd_v8_t) (st : cd_state_t) : Prop :=
  (∀ a ∈ st.queue, v8.V8_IS_HEAPOBJECT a = true) ∧
  (∀ n ∈ st.nodes, v8.V8_IS_HEAPOBJECT n.obj = true)

/-- No finished node has had its member `edges` initialised or written. -/
def NoEdges (st : cd_state_t) : Prop :=
  ∀ n ∈ st.nodes, n.edges = none

/-- The map field of `obj` is readable and carries the zap bit, and no finished
node has the address `obj`. -/
def MarkedOut (v8 : cd_v8_t) (obj : Nat) (st : cd_state_t) : Prop :=
  (∃ p, V8_CORE_PTR st obj v8.cd_v8_class_HeapObject__map__Map = some p ∧
    core_read st p &&& st.zap_bit = st.zap_bit) ∧
  obj ∉ st.nodes.map (fun n => n.obj)

/-! ## What each function leaves alone -/

/-- The outcome of a visit on the finished list: on an error the list and the
counter are as before, on success one node for `obj` with the next id is added. -/
def NodeStep (e : cd_error_t) (st st' : cd_state_t) (obj : Nat) : Prop :=
  (cd_is_ok e = false ∧ st'.nodes = st.nodes ∧ st'.node_count = st.node_count) ∨
  (e = cd_ok ∧ st'.node_count = st.node_count + 1 ∧
    ∃ kind name size, st'.nodes = st.nodes ++
      [{ obj := obj, type := kind, id := st.node_count, name := name, size := size }])

theorem lor_land_self (a b : Nat) : (a ||| b) &&& b = b := by
  apply Nat.eq_of_testBit_eq
  intro i
  simp only [Nat.testBit_land, Nat.testBit_lor]
  cases a.testBit i <;> cases b.testBit i <;> rfl

theorem countP_set_lt (p : Nat → Bool) (v : Nat) :
    ∀ (l : List Nat) (i : Nat), i < l.length → p (l.getD i 0) = true → p v = false →
      (l.set i v).countP p + 1 = l.countP p := by
  intro l
  induction l with
  | nil => intro i h; simp at h
  | cons a t ih =>
    intro i h hp hv
    cases i with
    | zero =>
      simp only [List.getD_cons_zero] at hp
      simp [List.countP_cons, hp, hv]
    | succ j =>
      simp only [List.getD_cons_succ] at hp
      simp only [List.length_cons, Nat.add_lt_add_iff_right] at h
      have := ih j h hp hv
      simp only [List.set_cons_succ, List.countP_cons]
      omega

theorem V8_CORE_PTR_lt {st : cd_state_t} {ptr : Nat} {off : Int} {p : Nat}
    (h : V8_CORE_PTR st ptr off = some p) : p < st.core.mem.length := by
  unfold V8_CORE_PTR at h
  split_ifs at h with hc
  simp only [Option.some.injEq] at h
  omega

theorem V8_CORE_PTR_eq {st : cd_state_t} {ptr : Nat} {off : Int} {p : Nat}
    (h : V8_CORE_PTR st ptr off = some p) : (p : Int) = (ptr : Int) + off := by
  unfold V8_CORE_PTR at h
  split_ifs at h with hc
  simp only [Option.some.injEq] at h
  omega

theorem V8_CORE_PTR_congr {st st' : cd_state_t} (h : st'.core.mem.length = st.core.mem.length)
    (ptr : Nat) (off : Int) : V8_CORE_PTR st' ptr off = V8_CORE_PTR st ptr off := by
  simp only [V8_CORE_PTR, h]

theorem unmarked_core_write {st : cd_state_t} {p : Nat} (hp : p < st.core.mem.length)
    (hu : ¬ (core_read st p &&& st.zap_bit = st.zap_bit)) :
    unmarked (core_write st p (core_read st p ||| st.zap_bit)) + 1 = unmarked st := by
  unfold unmarked core_write
  simp only
  apply countP_set_lt _ _ _ _ hp
  · simpa [core_read] using hu
  · simp [lor_land_self]

theorem Frame.refl (st : cd_state_t) : Frame st st :=
  ⟨rfl, rfl, rfl, List.prefix_refl _⟩

theorem Frame.trans {a b c : cd_state_t} (h₁ : Frame a b) (h₂ : Frame b c) : Frame a c :=
  ⟨h₂.core.trans h₁.core, h₂.zap_bit.trans h₁.zap_bit, h₂.ptr_size.trans h₁.ptr_size,
    h₁.queue.trans h₂.queue⟩

theorem cd_queue_ptr_frame (v8 : cd_v8_t) (st : cd_state_t) (ptr : Nat) :
    Frame st (cd_queue_ptr v8 st ptr).2 ∧
    (cd_queue_ptr v8 st ptr).2.nodes = st.nodes ∧
    (cd_queue_ptr v8 st ptr).2.node_count = st.node_count := by
  unfold cd_queue_ptr
  split_ifs
  · exact ⟨Frame.refl st, rfl, rfl⟩
  · exact ⟨⟨rfl, rfl, rfl, List.prefix_refl _⟩, rfl, rfl⟩
  · exact ⟨⟨rfl, rfl, rfl, List.prefix_append _ _⟩, rfl, rfl⟩

theorem cd_queue_space_loop_frame (v8 : cd_v8_t) (delta : Nat) :
    ∀ (n : Nat) (st : cd_state_t) (start end_ : Nat),
      Frame st (cd_queue_space_loop v8 delta n st start end_).2 ∧
      (cd_queue_space_loop v8 delta n st start end_).2.nodes = st.nodes ∧
      (cd_queue_space_loop v8 delta n st start end_).2.node_count = st.node_count := by
  intro n
  induction n with
  | zero => intro st start end_; exact ⟨Frame.refl st, rfl, rfl⟩
  | succ n ih =>
    intro st start end_
    simp only [cd_queue_space_loop]
    have hq := cd_queue_ptr_frame v8 st (core_read st start)
    split_ifs
    · exact hq
    · have hrec := ih (cd_queue_ptr v8 st (core_read st start)).2
        (start + delta) end_
      exact ⟨hq.1.trans hrec.1, hrec.2.1.trans hq.2.1, hrec.2.2.trans hq.2.2⟩
    · exact ⟨Frame.refl st, rfl, rfl⟩

theorem cd_queue_space_frame (v8 : cd_v8_t) (st : cd_state_t) (start end_ : Nat) :
    Frame st (cd_queue_space v8 st start end_).2 ∧
    (cd_queue_space v8 st start end_).2.nodes = st.nodes ∧
    (cd_queue_space v8 st start end_).2.node_count = st.node_count :=
  cd_queue_space_loop_frame v8 _ _ st start end_

theorem cd_add_node_finish_spec (v8 : cd_v8_t) (st : cd_state_t) (obj map : Nat) (type : Int)
    (kind : cd_node_type_t) (name : Int) :
    Frame st (cd_add_node_finish v8 st obj map type kind name).2 ∧
    NodeStep (cd_add_node_finish v8 st obj map type kind name).1 st
      (cd_add_node_finish v8 st obj map type kind name).2 obj := by
  unfold cd_add_node_finish
  split
  · exact ⟨Frame.refl st, Or.inl ⟨rfl, rfl, rfl⟩⟩
  · exact ⟨⟨rfl, rfl, rfl, List.prefix_refl _⟩, Or.inr ⟨rfl, rfl, _, _, _, rfl⟩⟩

theorem cd_add_node_spec (v8 : cd_v8_t) (st : cd_state_t) (obj map : Nat) (type : Int) :
    Frame st (cd_add_node v8 st obj map type).2 ∧
    NodeStep (cd_add_node v8 st obj map type).1 st (cd_add_node v8 st obj map type).2 obj := by
  have hfail : Frame st st ∧ NodeStep (cd_error cd_error_code.kCDErrNotFound) st st obj :=
    ⟨Frame.refl st, Or.inl ⟨rfl, rfl, rfl⟩⟩
  unfold cd_add_node
  split_ifs
  · split
    · exact hfail
    · dsimp only
      split
      · exact hfail
      · split
        · exact ⟨Frame.refl st, Or.inl ⟨rfl, rfl, rfl⟩⟩
        · rename_i idx strings _
          have h := cd_add_node_finish_spec v8 { st with strings := strings } obj map type
            cd_node_type_t.kCDNodeClosure idx
          exact ⟨⟨h.1.core, h.1.zap_bit, h.1.ptr_size, h.1.queue⟩, h.2⟩
  · split
    · exact ⟨Frame.refl st, Or.inl ⟨rfl, rfl, rfl⟩⟩
    · rename_i idx strings _
      have h := cd_add_node_finish_spec v8 { st with strings := strings } obj map type
        cd_node_type_t.kCDNodeHidden idx
      exact ⟨⟨h.1.core, h.1.zap_bit, h.1.ptr_size, h.1.queue⟩, h.2⟩

theorem NodeStep.of_eq {e : cd_error_t} {a b c : cd_state_t} {obj : Nat}
    (hn : b.nodes = a.nodes) (hc : b.node_count = a.node_count) (h : NodeStep e b c obj) :
    NodeStep e a c obj := by
  unfold NodeStep at h ⊢
  rw [hn, hc] at h
  exact h

theorem cd_visit_root_body_spec (v8 : cd_v8_t) (st : cd_state_t) (obj map : Nat) :
    Frame st (cd_visit_root_body v8 st obj map).2 ∧
    NodeStep (cd_visit_root_body v8 st obj map).1 st (cd_visit_root_body v8 st obj map).2 obj := by
  have hfail : ∀ e, Frame st st ∧ NodeStep (cd_error e) st st obj :=
    fun e => ⟨Frame.refl st, Or.inl ⟨rfl, rfl, rfl⟩⟩
  have hscan : ∀ (start end_ : Nat) (type : Int),
      Frame st (cd_add_node v8 (cd_queue_space v8 st start end_).2 obj map type).2 ∧
      NodeStep (cd_add_node v8 (cd_queue_space v8 st start end_).2 obj map type).1 st
        (cd_add_node v8 (cd_queue_space v8 st start end_).2 obj map type).2 obj := by
    intro start end_ type
    have hq := cd_queue_space_frame v8 st start end_
    have ha := cd_add_node_spec v8 (cd_queue_space v8 st start end_).2 obj map type
    exact ⟨hq.1.trans ha.1, ha.2.of_eq hq.2.1 hq.2.2⟩
  unfold cd_visit_root_body
  split
  · exact hfail _
  · simp only
    split_ifs
    · exact cd_add_node_spec v8 st obj map _
    · split
      · exact hfail _
      · split
        · exact hfail _
        · split
          · exact hfail _
          · exact hscan _ _ _
    · split
      · exact hfail _
      · split
        · exact hfail _
        · exact hscan _ _ _
    · exact cd_add_node_spec v8 st obj map _

theorem unmarked_congr {st st' : cd_state_t} (hc : st'.core = st.core)
    (hz : st'.zap_bit = st.zap_bit) : unmarked st' = unmarked st := by
  unfold unmarked
  rw [hc, hz]

/-- The two ways a visit ends. Either it stops at the map field (unreadable, or
already zapped) and leaves the whole state as it was, or it zaps the map field,
and from there on only the queue, the string table, the allocation count and the
finished list change. -/
theorem cd_visit_root_spec (v8 : cd_v8_t) (st : cd_state_t) (obj : Nat) :
    ((cd_visit_root v8 st obj).2 = st ∧ cd_is_ok (cd_visit_root v8 st obj).1 = false ∧
      ∀ pmap, V8_CORE_PTR st obj v8.cd_v8_class_HeapObject__map__Map = some pmap →
        core_read st pmap &&& st.zap_bit = st.zap_bit) ∨
    (∃ pmap, V8_CORE_PTR st obj v8.cd_v8_class_HeapObject__map__Map = some pmap ∧
      ¬ (core_read st pmap &&& st.zap_bit = st.zap_bit) ∧
      Frame (core_write st pmap (core_read st pmap ||| st.zap_bit)) (cd_visit_root v8 st obj).2 ∧
      NodeStep (cd_visit_root v8 st obj).1 st (cd_visit_root v8 st obj).2 obj) := by
  unfold cd_visit_root
  split
  · rename_i h
    exact Or.inl ⟨rfl, rfl, fun pmap hp => by rw [h] at hp; cases hp⟩
  · rename_i pmap h
    dsimp only
    split_ifs with hz hq
    · exact Or.inl ⟨rfl, rfl, fun p hp => by rw [h] at hp; cases hp; exact hz⟩
    · refine Or.inr ⟨pmap, h, hz, ?_, ?_⟩
      · exact (cd_queue_ptr_frame v8 _ _).1
      · have hf := cd_queue_ptr_frame v8
          (core_write st pmap (core_read st pmap ||| st.zap_bit)) (core_read st pmap)
        refine Or.inl ⟨?_, hf.2.1, hf.2.2⟩
        simpa using hq
    · refine Or.inr ⟨pmap, h, hz, ?_, ?_⟩
      · exact (cd_queue_ptr_frame v8 _ _).1.trans (cd_visit_root_body_spec v8 _ obj _).1
      · have hf := cd_queue_ptr_frame v8
          (core_write st pmap (core_read st pmap ||| st.zap_bit)) (core_read st pmap)
        exact (cd_visit_root_body_spec v8 _ obj _).2.of_eq hf.2.1 hf.2.2

/-- Every iteration of the loop of `cd_visit_roots` lowers the pair (words of the
image without the zap bit, length of the work queue) in the lexicographic order. -/
theorem cd_visit_root_decreases (v8 : cd_v8_t) (st : cd_state_t) (obj : Nat) (rest : List Nat)
    (h : st.queue = obj :: rest) :
    Prod.Lex (· < ·) (· < ·)
      (unmarked (cd_visit_root v8 (set_queue st rest) obj).2,
        (cd_visit_root v8 (set_queue st rest) obj).2.queue.length)
      (unmarked st, st.queue.length) := by
  rcases cd_visit_root_spec v8 (set_queue st rest) obj with ⟨h2, -, -⟩ | ⟨pmap, hp, hz, hf, -⟩
  · rw [h2, h]
    exact Prod.Lex.right _ (by simp [set_queue])
  · apply Prod.Lex.left
    have h1 := unmarked_congr hf.core hf.zap_bit
    have h2 := unmarked_core_write (V8_CORE_PTR_lt hp) hz
    have h3 : unmarked (set_queue st rest) = unmarked st := rfl
    omega

/-- The function `cd_visit_roots`: the loop `while (!QUEUE_EMPTY(&state->queue))`
takes the head of the queue off, visits it, and frees it when the visit fails;
after the loop the function returns `cd_ok()`. -/
def cd_visit_roots (v8 : cd_v8_t) (state : cd_state_t) : cd_error_t × cd_state_t :=
  match _h : state.queue with
  | [] => (cd_ok, state)
  | obj :: rest => cd_visit_roots v8 (cd_visit_root v8 (set_queue state rest) obj).2
termination_by (unmarked state, state.queue.length)
decreasing_by exact cd_visit_root_decreases v8 state obj rest _h

theorem cd_visit_roots_nil (v8 : cd_v8_t) (st : cd_state_t) (h : st.queue = []) :
    cd_visit_roots v8 st = (cd_ok, st) := by
  rw [cd_visit_roots]
  split
  · rfl
  · rename_i h'; rw [h] at h'; cases h'

theorem cd_visit_roots_cons (v8 : cd_v8_t) (st : cd_state_t) (obj : Nat) (rest : List Nat)
    (h : st.queue = obj :: rest) :
    cd_visit_roots v8 st = cd_visit_roots v8 (cd_visit_root v8 (set_queue st rest) obj).2 := by
  rw [cd_visit_roots]
  split
  · rename_i h'; rw [h] at h'; cases h'
  · rename_i o r h'
    rw [h] at h'
    cases h'
    rfl

theorem cd_visit_roots_step_eq (v8 : cd_v8_t) (st : cd_state_t) :
    cd_visit_roots v8 (cd_visit_roots_step v8 st) = cd_visit_roots v8 st := by
  unfold cd_visit_roots_step
  split
  · rfl
  · rename_i obj rest h
    exact (cd_visit_roots_cons v8 st obj rest h).symm

theorem cd_visit_roots_iterate (v8 : cd_v8_t) (n : Nat) (st : cd_state_t) :
    cd_visit_roots v8 ((cd_visit_roots_step v8)^[n] st) = cd_visit_roots v8 st := by
  induction n generalizing st with
  | zero => rfl
  | succ n ih => rw [Function.iterate_succ_apply, ih, cd_visit_roots_step_eq]

/-- When `n` iterations of the loop empty the work queue, `cd_visit_roots` returns
`cd_ok()` in the state those iterations reach. -/
theorem cd_visit_roots_of_iterate (v8 : cd_v8_t) (n : Nat) (st : cd_state_t)
    (h : ((cd_visit_roots_step v8)^[n] st).queue = []) :
    cd_visit_roots v8 st = (cd_ok, (cd_visit_roots_step v8)^[n] st) := by
  rw [← cd_visit_roots_iterate v8 n st]
  exact cd_visit_roots_nil v8 _ h

/-- The loop of `cd_visit_roots` ends: some number of iterations empties the work
queue. -/
theorem cd_visit_roots_terminates (v8 : cd_v8_t) (st : cd_state_t) :
    ∃ n, ((cd_visit_roots_step v8)^[n] st).queue = [] := by
  induction st using cd_visit_roots.induct v8 with
  | case1 st h => exact ⟨0, h⟩
  | case2 st obj rest h ih =>
    obtain ⟨n, hn⟩ := ih
    refine ⟨n + 1, ?_⟩
    rw [Function.iterate_succ_apply]
    have : cd_visit_roots_step v8 st = (cd_visit_root v8 (set_queue st rest) obj).2 := by
      unfold cd_visit_roots_step
      rw [h]
    rw [this]
    exact hn

/-! ## Invariants of the loop -/

/-- A property that every visit preserves holds after `cd_visit_roots`. -/
theorem cd_visit_roots_invariant (v8 : cd_v8_t) (P : cd_state_t → Prop)
    (hdeq : ∀ st rest, P st → P (set_queue st rest))
    (hvisit : ∀ st obj, P st → P (cd_visit_root v8 st obj).2)
    (st : cd_state_t) (h : P st) : P (cd_visit_roots v8 st).2 := by
  induction st using cd_visit_roots.induct v8 with
  | case1 st hq => rw [cd_visit_roots_nil v8 st hq]; exact h
  | case2 st obj rest hq ih =>
    rw [cd_visit_roots_cons v8 st obj rest hq]
    exact ih (hvisit _ obj (hdeq st rest h))

theorem cd_visit_roots_step_invariant (v8 : cd_v8_t) (P : cd_state_t → Prop)
    (hdeq : ∀ st rest, P st → P (set_queue st rest))
    (hvisit : ∀ st obj, P st → P (cd_visit_root v8 st obj).2)
    (n : Nat) (st : cd_state_t) (h : P st) : P ((cd_visit_roots_step v8)^[n] st) := by
  induction n generalizing st with
  | zero => exact h
  | succ n ih =>
    rw [Function.iterate_succ_apply]
    apply ih
    unfold cd_visit_roots_step
    split
    · exact h
    · exact hvisit _ _ (hdeq st _ h)

theorem cd_visit_roots_step_nil (v8 : cd_v8_t) (st : cd_state_t) (h : st.queue = []) :
    cd_visit_roots_step v8 st = st := by
  unfold cd_visit_roots_step
  rw [h]

theorem cd_visit_roots_step_cons (v8 : cd_v8_t) (st : cd_state_t) (obj : Nat) (rest : List Nat)
    (h : st.queue = obj :: rest) :
    cd_visit_roots_step v8 st = (cd_visit_root v8 (set_queue st rest) obj).2 := by
  unfold cd_visit_roots_step
  rw [h]

theorem cd_visit_roots_iterate_nil (v8 : cd_v8_t) (n : Nat) (st : cd_state_t)
    (h : st.queue = []) : (cd_visit_roots_step v8)^[n] st = st := by
  induction n with
  | zero => rfl
  | succ n ih => rw [Function.iterate_succ_apply, cd_visit_roots_step_nil v8 st h, ih]

/-- The result of `cd_visit_roots` is the state some number of iterations reach,
with an empty work queue, and the return value is `cd_ok()`. -/
theorem cd_visit_roots_eq (v8 : cd_v8_t) (st : cd_state_t) :
    ∃ n, ((cd_visit_roots_step v8)^[n] st).queue = [] ∧
      cd_visit_roots v8 st = (cd_ok, (cd_visit_roots_step v8)^[n] st) := by
  obtain ⟨n, hn⟩ := cd_visit_roots_terminates v8 st
  exact ⟨n, hn, cd_visit_roots_of_iterate v8 n st hn⟩

theorem cd_visit_root_nodes_mono (v8 : cd_v8_t) (st : cd_state_t) (obj : Nat) :
    st.nodes <+: (cd_visit_root v8 st obj).2.nodes := by
  rcases cd_visit_root_spec v8 st obj with ⟨h, -, -⟩ | ⟨pmap, -, -, -, hn⟩
  · rw [h]
  · rcases hn with ⟨-, h, -⟩ | ⟨-, -, kind, name, size, h⟩
    · rw [h]
    · rw [h]; exact List.prefix_append _ _

theorem cd_visit_roots_step_nodes_mono (v8 : cd_v8_t) (st : cd_state_t) :
    st.nodes <+: (cd_visit_roots_step v8 st).nodes := by
  unfold cd_visit_roots_step
  split
  · exact List.prefix_refl _
  · rename_i obj rest _
    exact cd_visit_root_nodes_mono v8 (set_queue st rest) obj

theorem cd_visit_roots_iterate_nodes_mono (v8 : cd_v8_t) (n : Nat) (st : cd_state_t) :
    st.nodes <+: ((cd_visit_roots_step v8)^[n] st).nodes := by
  induction n generalizing st with
  | zero => exact List.prefix_refl _
  | succ n ih =>
    rw [Function.iterate_succ_apply]
    exact (cd_visit_roots_step_nodes_mono v8 st).trans (ih _)

/-- Every finished node has a readable map field that carries the zap bit, and no
two finished nodes have the same address. -/
def Zapped (v8 : cd_v8_t) (st : cd_state_t) : Prop :=
  (∀ n ∈ st.nodes, ∃ p, V8_CORE_PTR st n.obj v8.cd_v8_class_HeapObject__map__Map = some p ∧
    core_read st p &&& st.zap_bit = st.zap_bit) ∧
  (st.nodes.map (fun n => n.obj)).Nodup

theorem core_read_of_frame_write {st st' : cd_state_t} {pmap v p : Nat}
    (hf : Frame (core_write st pmap v) st') (hp : p < st.core.mem.length) :
    core_read st' p = if pmap = p then v else core_read st p := by
  unfold core_read
  rw [hf.core]
  simp only [core_write]
  rw [List.getD_eq_getElem?_getD, List.getD_eq_getElem?_getD, List.getElem?_set]
  split_ifs with h1 h2
  · rfl
  · omega
  · rfl

theorem Zapped_visit (v8 : cd_v8_t) (st : cd_state_t) (obj : Nat) (h : Zapped v8 st) :
    Zapped v8 (cd_visit_root v8 st obj).2 := by
  rcases cd_visit_root_spec v8 st obj with ⟨h2, -, -⟩ | ⟨pmap, hp, hz, hf, hn⟩
  · rw [h2]; exact h
  · have hlen : (cd_visit_root v8 st obj).2.core.mem.length = st.core.mem.length := by
      rw [hf.core]; simp [core_write]
    have hzap : (cd_visit_root v8 st obj).2.zap_bit = st.zap_bit := hf.zap_bit
    have hold : ∀ n ∈ st.nodes, ∃ p,
        V8_CORE_PTR (cd_visit_root v8 st obj).2 n.obj v8.cd_v8_class_HeapObject__map__Map
          = some p ∧
        core_read (cd_visit_root v8 st obj).2 p &&& (cd_visit_root v8 st obj).2.zap_bit
          = (cd_visit_root v8 st obj).2.zap_bit := by
      intro n hn'
      obtain ⟨p, hp1, hp2⟩ := h.1 n hn'
      refine ⟨p, by rw [V8_CORE_PTR_congr hlen]; exact hp1, ?_⟩
      rw [core_read_of_frame_write hf (V8_CORE_PTR_lt hp1), hzap]
      split_ifs
      · exact lor_land_self _ _
      · exact hp2
    rcases hn with ⟨-, hnodes, -⟩ | ⟨-, -, kind, name, size, hnodes⟩
    · refine ⟨?_, by rw [hnodes]; exact h.2⟩
      rw [hnodes]; exact hold
    · refine ⟨?_, ?_⟩
      · rw [hnodes]
        intro n hn'
        rcases List.mem_append.1 hn' with hin | hin
        · exact hold n hin
        · simp only [List.mem_singleton] at hin
          subst hin
          refine ⟨pmap, by rw [V8_CORE_PTR_congr hlen]; exact hp, ?_⟩
          rw [core_read_of_frame_write hf (V8_CORE_PTR_lt hp), hzap, if_pos rfl]
          exact lor_land_self _ _
      · rw [hnodes, List.map_append, List.nodup_append]
        refine ⟨h.2, by simp, ?_⟩
        intro a ha hb
        simp only [List.map_cons, List.map_nil, List.mem_singleton] at hb
        subst hb
        obtain ⟨n, hn', hobj⟩ := List.mem_map.1 ha
        obtain ⟨p, hp1, hp2⟩ := h.1 n hn'
        rw [hobj, hp] at hp1
        cases hp1
        exact hz hp2

theorem Zapped_iterate (v8 : cd_v8_t) (n : Nat) (st : cd_state_t) (h : Zapped v8 st) :
    Zapped v8 ((cd_visit_roots_step v8)^[n] st) :=
  cd_visit_roots_step_invariant v8 (Zapped v8) (fun _ _ h => h) (fun st obj h => Zapped_visit v8 st obj h)
    n st h

/-- A successful visit puts a node for the candidate in the finished list. -/
theorem cd_visit_root_ok_mem (v8 : cd_v8_t) (st : cd_state_t) (obj : Nat)
    (h : (cd_visit_root v8 st obj).1 = cd_ok) :
    obj ∈ (cd_visit_root v8 st obj).2.nodes.map (fun n => n.obj) := by
  rcases cd_visit_root_spec v8 st obj with ⟨-, h2, -⟩ | ⟨pmap, -, -, -, hn⟩
  · rw [h] at h2; cases h2
  · rcases hn with ⟨h2, -, -⟩ | ⟨-, -, kind, name, size, hnodes⟩
    · rw [h] at h2; cases h2
    · rw [hnodes]; simp

/-- C1. At-most-once visitation: when `cd_visit_roots` starts with an empty
finished list, no two Nodes of the resulting finished list have the same object
address, and every candidate whose visit succeeded in some iteration of the loop
has exactly one Node in the result, however often its address was queued. (The
statement holds for every zap bit.) -/
theorem visit_roots_at_most_once (v8 : cd_v8_t) (st : cd_state_t) (h : st.nodes = []) :
    ((cd_visit_roots v8 st).2.nodes.map (fun n => n.obj)).Nodup ∧
    ∀ (k obj : Nat) (rest : List Nat),
      ((cd_visit_roots_step v8)^[k] st).queue = obj :: rest →
      (cd_visit_root v8 (set_queue ((cd_visit_roots_step v8)^[k] st) rest) obj).1 = cd_ok →
      ((cd_visit_roots v8 st).2.nodes.map (fun n => n.obj)).count obj = 1 := by
  obtain ⟨n, hq, heq⟩ := cd_visit_roots_eq v8 st
  have hz : Zapped v8 st := ⟨by rw [h]; simp, by rw [h]; simp⟩
  have hnd : ((cd_visit_roots v8 st).2.nodes.map (fun n => n.obj)).Nodup := by
    rw [heq]; exact (Zapped_iterate v8 n st hz).2
  refine ⟨hnd, ?_⟩
  intro k obj rest hk hok
  apply List.count_eq_one_of_mem hnd
  rw [heq]
  have hmem := cd_visit_root_ok_mem v8 _ obj hok
  have hsucc : (cd_visit_roots_step v8)^[k + 1] st
      = (cd_visit_root v8 (set_queue ((cd_visit_roots_step v8)^[k] st) rest) obj).2 := by
    rw [Function.iterate_succ_apply', cd_visit_roots_step_cons v8 _ obj rest hk]
  rw [← hsucc] at hmem
  rcases Nat.lt_or_ge k n with hlt | hge
  · obtain ⟨d, rfl⟩ : ∃ d, n = (k + 1) + d := ⟨n - (k + 1), by omega⟩
    rw [Nat.add_comm (k + 1) d, Function.iterate_add_apply]
    exact (List.IsPrefix.map _ (cd_visit_roots_iterate_nodes_mono v8 d _)).subset hmem
  · obtain ⟨d, rfl⟩ : ∃ d, k = d + n := ⟨k - n, by omega⟩
    rw [Function.iterate_add_apply, cd_visit_roots_iterate_nil v8 d _ hq, hq] at hk
    cases hk

set_option maxRecDepth 1000000 in
/-- C1, on the diamond `root -> A, root -> B, A -> C, B -> C`: `C` (address 112)
is queued by `A` and by `B`, its first visit (iteration 6) succeeds, and the
finished list holds exactly one Node for it. -/
theorem visit_roots_at_most_once_diamond :
    (demo_state diamond_core [64]).nodes = [] ∧
    ((cd_visit_roots demo_v8 (demo_state diamond_core [64])).2.nodes.map (fun n => n.obj)).Nodup ∧
    ((cd_visit_roots demo_v8 (demo_state diamond_core [64])).2.nodes.map
      (fun n => n.obj)).count 112 = 1 ∧
    ((cd_visit_roots_step demo_v8)^[5] (demo_state diamond_core [64])).queue
      = [40, 112, 40, 112, 16] :=
  ⟨rfl, (visit_roots_at_most_once demo_v8 (demo_state diamond_core [64]) rfl).1,
    (visit_roots_at_most_once demo_v8 (demo_state diamond_core [64]) rfl).2 6 112 [40, 112, 16]
      (by decide) (by decide),
    by decide⟩

/-- C2. Termination: for every image, work queue and zap bit the loop of
`cd_visit_roots` ends. The function is total by well-founded recursion on the
pair (words of the image without the zap bit, length of the work queue), and its
result is the state reached by a finite number of iterations of the loop body,
with an empty work queue. -/
theorem visit_roots_terminates (v8 : cd_v8_t) (st : cd_state_t) :
    ∃ n, ((cd_visit_roots_step v8)^[n] st).queue = [] ∧
      cd_visit_roots v8 st = (cd_ok, (cd_visit_roots_step v8)^[n] st) ∧
      ∀ (obj : Nat) (rest : List Nat), st.queue = obj :: rest →
        Prod.Lex (· < ·) (· < ·)
          (unmarked (cd_visit_roots_step v8 st), (cd_visit_roots_step v8 st).queue.length)
          (unmarked st, st.queue.length) := by
  obtain ⟨n, hq, heq⟩ := cd_visit_roots_eq v8 st
  refine ⟨n, hq, heq, ?_⟩
  intro obj rest h
  rw [cd_visit_roots_step_cons v8 st obj rest h]
  exact cd_visit_root_decreases v8 st obj rest h

/-! ## The child range and its scan -/

theorem cd_queue_space_loop_fuel (v8 : cd_v8_t) (delta : Nat) (hd : 0 < delta) :
    ∀ (n m : Nat) (st : cd_state_t) (s e : Nat), e - s ≤ n → e - s ≤ m →
      cd_queue_space_loop v8 delta n st s e = cd_queue_space_loop v8 delta m st s e := by
  intro n
  induction n with
  | zero =>
    intro m st s e hn _
    cases m with
    | zero => rfl
    | succ m =>
      have : ¬ s < e := by omega
      simp [cd_queue_space_loop, this]
  | succ n ih =>
    intro m st s e hn hm
    cases m with
    | zero =>
      have : ¬ s < e := by omega
      simp [cd_queue_space_loop, this]
    | succ m =>
      simp only [cd_queue_space_loop]
      split_ifs with h1 h2
      · rfl
      · exact ih m _ _ _ (by omega) (by omega)
      · rfl

theorem cd_queue_space_delta_pos (st : cd_state_t) : 0 < cd_queue_space_delta st := by
  unfold cd_queue_space_delta
  split_ifs <;> decide

theorem cd_queue_space_delta_congr {st st' : cd_state_t} (h : st'.core = st.core) :
    cd_queue_space_delta st' = cd_queue_space_delta st := by
  unfold cd_queue_space_delta
  rw [h]

theorem core_read_congr {st st' : cd_state_t} (h : st'.core = st.core) (p : Nat) :
    core_read st' p = core_read st p := by
  unfold core_read
  rw [h]

/-- The loop equation of `cd_queue_space`: one iteration of
`for (; start < end; start += delta)` with its early return, then the rest. -/
theorem cd_queue_space_unfold (v8 : cd_v8_t) (st : cd_state_t) (s e : Nat) :
    cd_queue_space v8 st s e =
      if s < e then
        if !cd_is_ok (cd_queue_ptr v8 st (core_read st s)).1 then
          cd_queue_ptr v8 st (core_read st s)
        else
          cd_queue_space v8 (cd_queue_ptr v8 st (core_read st s)).2
            (s + cd_queue_space_delta st) e
      else (cd_ok, st) := by
  have hd := cd_queue_space_delta_pos st
  have hcore : cd_queue_space_delta (cd_queue_ptr v8 st (core_read st s)).2
      = cd_queue_space_delta st :=
    cd_queue_space_delta_congr (cd_queue_ptr_frame v8 st _).1.core
  unfold cd_queue_space
  simp only [hcore]
  by_cases h1 : s < e
  · obtain ⟨k, hk⟩ : ∃ k, e - s = k + 1 := ⟨e - s - 1, by omega⟩
    rw [hk, if_pos h1]
    simp only [cd_queue_space_loop, h1, if_true]
    split_ifs with h2
    · rfl
    · exact cd_queue_space_loop_fuel v8 _ hd _ _ _ _ _ (by omega) (le_refl _)
  · have : e - s = 0 := by omega
    rw [this, if_neg h1]
    rfl

/-- The scan stops at the first word that is not heap-object-shaped: the words
after it in the range are not looked at. -/
theorem cd_queue_space_stops (v8 : cd_v8_t) (st : cd_state_t) (s e : Nat) (h : s < e)
    (hw : v8.V8_IS_HEAPOBJECT (core_read st s) = false) :
    cd_queue_space v8 st s e = (cd_error cd_error_code.kCDErrNotObject, st) := by
  rw [cd_queue_space_unfold, if_pos h]
  simp [cd_queue_ptr, hw, cd_is_ok, cd_error]

/-- The child range of a general object, as `cd_visit_root` computes it: it
starts at `obj + properties` and ends at `obj + properties + size`. -/
theorem cd_visit_root_body_general (v8 : cd_v8_t) (st : cd_state_t) (obj map ptype : Nat)
    (size : Int) (start end_ : Nat)
    (hp : V8_CORE_PTR st map v8.cd_v8_class_Map__instance_attributes__int = some ptype)
    (hns : ¬ ((core_read st ptype % 256 : Nat) : Int) < v8.cd_v8_FirstNonstringType)
    (hg : is_general_object v8 ((core_read st ptype % 256 : Nat) : Int) = true)
    (hsize : v8.cd_v8_get_obj_size st.core map ((core_read st ptype % 256 : Nat) : Int)
      = Except.ok size)
    (hs : V8_CORE_PTR st obj v8.cd_v8_class_JSObject__properties__FixedArray = some start)
    (he : V8_CORE_PTR st obj (v8.cd_v8_class_JSObject__properties__FixedArray + size)
      = some end_) :
    cd_visit_root_body v8 st obj map =
      cd_add_node v8 (cd_queue_space v8 st start end_).2 obj map
        ((core_read st ptype % 256 : Nat) : Int) ∧
    (start : Int) = obj + v8.cd_v8_class_JSObject__properties__FixedArray ∧
    (end_ : Int) = obj + v8.cd_v8_class_JSObject__properties__FixedArray + size := by
  refine ⟨?_, V8_CORE_PTR_eq hs, ?_⟩
  · unfold cd_visit_root_body
    simp only [hp, hns, hg, hsize, hs, he, if_false, if_true]
  · have := V8_CORE_PTR_eq he
    omega

/-- The child range of a map, as `cd_visit_root` computes it: it starts at
`obj + instance_attributes + 4` and is `2 * ptr_size` bytes long. -/
theorem cd_visit_root_body_map (v8 : cd_v8_t) (st : cd_state_t) (obj map ptype : Nat)
    (start end_ : Nat)
    (hp : V8_CORE_PTR st map v8.cd_v8_class_Map__instance_attributes__int = some ptype)
    (hns : ¬ ((core_read st ptype % 256 : Nat) : Int) < v8.cd_v8_FirstNonstringType)
    (hg : is_general_object v8 ((core_read st ptype % 256 : Nat) : Int) = false)
    (hm : ((core_read st ptype % 256 : Nat) : Int) = v8.cd_v8_type_Map__MAP_TYPE)
    (hs : V8_CORE_PTR st obj (v8.cd_v8_class_Map__instance_attributes__int + 4) = some start)
    (he : V8_CORE_PTR st obj (v8.cd_v8_class_Map__instance_attributes__int + 4
      + st.ptr_size * 2) = some end_) :
    cd_visit_root_body v8 st obj map =
      cd_add_node v8 (cd_queue_space v8 st start end_).2 obj map
        ((core_read st ptype % 256 : Nat) : Int) ∧
    (start : Int) = obj + v8.cd_v8_class_Map__instance_attributes__int + 4 ∧
    (end_ : Int) = start + st.ptr_size * 2 := by
  have h1 := V8_CORE_PTR_eq hs
  have h2 := V8_CORE_PTR_eq he
  refine ⟨?_, by omega, by omega⟩
  unfold cd_visit_root_body
  simp only [hp, hns, hg, hs, he, if_false, if_true]
  simp [hm]

/-- A range of two steps holds two slots: the scan looks at the word at `s`,
then, unless queueing it failed, at the word at `s + delta`, and at no other. -/
theorem cd_queue_space_two (v8 : cd_v8_t) (st : cd_state_t) (s : Nat) :
    cd_queue_space v8 st s (s + 2 * cd_queue_space_delta st) =
      if !cd_is_ok (cd_queue_ptr v8 st (core_read st s)).1 then
        cd_queue_ptr v8 st (core_read st s)
      else
        cd_queue_ptr v8 (cd_queue_ptr v8 st (core_read st s)).2
          (core_read st (s + cd_queue_space_delta st)) := by
  have hd := cd_queue_space_delta_pos st
  have hf := (cd_queue_ptr_frame v8 st (core_read st s)).1
  have hread : core_read (cd_queue_ptr v8 st (core_read st s)).2 (s + cd_queue_space_delta st)
      = core_read st (s + cd_queue_space_delta st) := core_read_congr hf.core _
  rw [cd_queue_space_unfold, if_pos (by omega)]
  split_ifs with h1
  · rfl
  · rw [cd_queue_space_unfold, if_pos (by omega), cd_queue_space_delta_congr hf.core, hread]
    split_ifs with h2
    · rfl
    · rw [cd_queue_space_unfold, if_neg (by omega)]
      revert h2
      generalize cd_queue_ptr v8 (cd_queue_ptr v8 st (core_read st s)).2
        (core_read st (s + cd_queue_space_delta st)) = r
      rcases r with ⟨e, st'⟩
      cases e <;> simp [cd_is_ok, cd_ok]

set_option maxRecDepth 1000000 in
/-- C3, on the object at 64 of `gap_core`: its child range is the words at 68, 72
and 76; the word at 68 is the small integer 0 and the word at 72 is the
heap-object-shaped address 96, and every allocation succeeds. The scan returns
the not-an-object error at 68 and appends nothing, so 96 is never queued: the
visit of 64 queues only the map, and the whole run never makes a Node for 96. -/
theorem queue_space_stops_at_first_non_object :
    demo_v8.V8_IS_HEAPOBJECT (core_read (demo_state gap_core []) 72) = true ∧
    cd_queue_space demo_v8 (demo_state gap_core []) 68 80
      = (cd_error cd_error_code.kCDErrNotObject, demo_state gap_core []) ∧
    (cd_visit_root demo_v8 (demo_state gap_core []) 64).1 = cd_ok ∧
    (cd_visit_root demo_v8 (demo_state gap_core []) 64).2.queue = [40] ∧
    ((cd_visit_roots_step demo_v8)^[5] (demo_state gap_core [64])).queue = [] ∧
    ((cd_visit_roots_step demo_v8)^[5] (demo_state gap_core [64])).nodes.map (fun n => n.obj)
      = [64, 40, 16] := by
  decide

set_option maxRecDepth 1000000 in
/-- C4, on the object at 64 of `overrun_core`: the oracle gives size 12, so the
object ends at 76, and the properties offset is 4. The visit scans the words at
68, 72 and 76, that is up to `64 + 4 + 12 = 80`, and queues the word at 76, which
lies behind the object; a scan of the range that ends at `64 + 12` queues only
the two property slots. -/
theorem general_range_overruns_object :
    demo_v8.cd_v8_get_obj_size overrun_core 40 160 = Except.ok 12 ∧
    demo_v8.cd_v8_class_JSObject__properties__FixedArray = 4 ∧
    (cd_visit_root demo_v8 (demo_state overrun_core []) 64).1 = cd_ok ∧
    (cd_visit_root demo_v8 (demo_state overrun_core []) 64).2.queue = [40, 80, 96, 112] ∧
    (cd_queue_space demo_v8 (demo_state overrun_core [40]) (64 + 4) (64 + 4 + 12)).2.queue
      = [40, 80, 96, 112] ∧
    (cd_queue_space demo_v8 (demo_state overrun_core [40]) (64 + 4) (64 + 12)).2.queue
      = [40, 80, 96] :=
  ⟨rfl, rfl, by decide, by decide, by decide, by decide⟩

set_option maxRecDepth 1000000 in
/-- C5, on the map at 40 of `proto_core` (pointer width 4): its child range is
the two words at 52 and 56. The constructor slot at 52 holds the small integer 0,
so the scan returns there and the prototype slot at 56, which holds the
heap-object-shaped address 64, is not read: the visit queues only the map's own
map, 16. -/
theorem map_range_second_slot_unread :
    demo_v8.V8_IS_HEAPOBJECT (core_read (demo_state proto_core []) 56) = true ∧
    cd_queue_space demo_v8 (demo_state proto_core []) (40 + 8 + 4) (40 + 8 + 4 + 2 * 4)
      = (cd_error cd_error_code.kCDErrNotObject, demo_state proto_core []) ∧
    (cd_visit_root demo_v8 (demo_state proto_core []) 40).1 = cd_ok ∧
    (cd_visit_root demo_v8 (demo_state proto_core []) 40).2.queue = [16] := by
  decide

/-! ## Errors of a visit and the loop -/

/-- A failed visit adds no node and takes no id. -/
theorem cd_visit_root_fail_nodes (v8 : cd_v8_t) (st : cd_state_t) (obj : Nat)
    (h : cd_is_ok (cd_visit_root v8 st obj).1 = false) :
    (cd_visit_root v8 st obj).2.nodes = st.nodes ∧
    (cd_visit_root v8 st obj).2.node_count = st.node_count := by
  rcases cd_visit_root_spec v8 st obj with ⟨h2, -, -⟩ | ⟨pmap, -, -, -, hn⟩
  · rw [h2]; exact ⟨rfl, rfl⟩
  · rcases hn with ⟨-, h1, h2⟩ | ⟨hok, -, -⟩
    · exact ⟨h1, h2⟩
    · rw [hok] at h; cases h

/-- The function `cd_visit_roots` returns `cd_ok()` with an empty work queue,
whatever happens during the visits. -/
theorem cd_visit_roots_ok (v8 : cd_v8_t) (st : cd_state_t) :
    (cd_visit_roots v8 st).1 = cd_ok ∧ (cd_visit_roots v8 st).2.queue = [] := by
  obtain ⟨n, hq, heq⟩ := cd_visit_roots_eq v8 st
  rw [heq]
  exact ⟨rfl, hq⟩

/-- C8. Duplicate discard: when the map field of the candidate is readable and
its value already has the zap bit set, `cd_visit_root` returns the
already-visited error and the state is exactly as before: image, work queue,
finished list and `node_count` are unchanged. -/
theorem visit_root_duplicate (v8 : cd_v8_t) (st : cd_state_t) (obj pmap : Nat)
    (hp : V8_CORE_PTR st obj v8.cd_v8_class_HeapObject__map__Map = some pmap)
    (hz : core_read st pmap &&& st.zap_bit = st.zap_bit) :
    cd_visit_root v8 st obj = (cd_error cd_error_code.kCDErrAlreadyVisited, st) := by
  unfold cd_visit_root
  rw [hp]
  simp only [hz, if_true]

set_option maxRecDepth 1000000 in
/-- C8, on the state the full run over the diamond image leaves: the map field of
`C`, at 112, holds 42, which is 40 with the zap bit 2; a further visit of 112
returns the already-visited error and changes nothing. -/
theorem visit_root_duplicate_diamond :
    core_read ((cd_visit_roots_step demo_v8)^[11] (demo_state diamond_core [64])) 112 = 42 ∧
    cd_visit_root demo_v8 ((cd_visit_roots_step demo_v8)^[11] (demo_state diamond_core [64])) 112
      = (cd_error cd_error_code.kCDErrAlreadyVisited,
          (cd_visit_roots_step demo_v8)^[11] (demo_state diamond_core [64])) :=
  ⟨by decide,
    visit_root_duplicate demo_v8 ((cd_visit_roots_step demo_v8)^[11] (demo_state diamond_core [64]))
      112 112 (by decide) (by decide)⟩

/-! ## Ids, names and kinds of the finished nodes -/

theorem Sequential_visit (v8 : cd_v8_t) (st : cd_state_t) (obj : Nat) (h : Sequential st) :
    Sequential (cd_visit_root v8 st obj).2 := by
  rcases cd_visit_root_spec v8 st obj with ⟨h2, -, -⟩ | ⟨pmap, -, -, -, hn⟩
  · rw [h2]; exact h
  · rcases hn with ⟨-, h1, h2⟩ | ⟨-, hc, kind, name, size, hnodes⟩
    · unfold Sequential
      rw [h1, h2]
      exact h
    · unfold Sequential
      rw [hnodes, hc, h.2]
      refine ⟨?_, by simp⟩
      rw [List.map_append, h.1]
      simp [List.range_succ]

/-- C9. Sequential ids: after `cd_visitor_init`, whatever candidates are visited
(any sequence of calls of `cd_visit_root`, any number of iterations of the loop
of `cd_visit_roots` on any work queue, or the whole of `cd_visit_roots`), the
Nodes of the finished list carry the ids `0, 1, 2, ...` in list order, so the
first Node has id 0, and `node_count` is the length of the list; a visit that
fails leaves `node_count` as it was. -/
theorem sequential_ids (v8 : cd_v8_t) (st0 : cd_state_t) :
    (∀ objs : List Nat,
      Sequential (objs.foldl (fun s o => (cd_visit_root v8 s o).2) (cd_visitor_init st0).2)) ∧
    (∀ (q : List Nat) (k : Nat),
      Sequential ((cd_visit_roots_step v8)^[k] (set_queue (cd_visitor_init st0).2 q))) ∧
    (∀ q : List Nat,
      Sequential (cd_visit_roots v8 (set_queue (cd_visitor_init st0).2 q)).2) ∧
    (∀ (st : cd_state_t) (obj : Nat), cd_is_ok (cd_visit_root v8 st obj).1 = false →
      (cd_visit_root v8 st obj).2.node_count = st.node_count) := by
  have hinit : Sequential (cd_visitor_init st0).2 := ⟨rfl, rfl⟩
  refine ⟨?_, ?_, ?_, ?_⟩
  · intro objs
    generalize (cd_visitor_init st0).2 = s at hinit
    induction objs generalizing s with
    | nil => exact hinit
    | cons o t ih => exact ih _ (Sequential_visit v8 s o hinit)
  · intro q k
    exact cd_visit_roots_step_invariant v8 Sequential (fun _ _ h => h)
      (fun st obj h => Sequential_visit v8 st obj h) k _ hinit
  · intro q
    exact cd_visit_roots_invariant v8 Sequential (fun _ _ h => h)
      (fun st obj h => Sequential_visit v8 st obj h) _ hinit
  · intro st obj h
    exact (cd_visit_root_fail_nodes v8 st obj h).2

/-- C10. Naming and kind: when `cd_add_node` succeeds it appends one Node for the
object. For the function tag the Node has kind closure and its name is the index
that `cd_v8_to_cstr` gives for the word read through object -> shared-metadata
record -> name field; for every other tag the Node has kind hidden and its name
is the index that `cd_strings_copy` gives for the empty string. -/
theorem add_node_name_kind (v8 : cd_v8_t) (st : cd_state_t) (obj map : Nat) (type : Int)
    (hok : (cd_add_node v8 st obj map type).1 = cd_ok) :
    ∃ node, (cd_add_node v8 st obj map type).2.nodes = st.nodes ++ [node] ∧ node.obj = obj ∧
      (type = v8.cd_v8_type_JSFunction__JS_FUNCTION_TYPE →
        node.type = cd_node_type_t.kCDNodeClosure ∧
        ∃ psh pname,
          V8_CORE_PTR st obj v8.cd_v8_class_JSFunction__shared__SharedFunctionInfo = some psh ∧
          V8_CORE_PTR st (core_read st psh) v8.cd_v8_class_SharedFunctionInfo__name__Object
            = some pname ∧
          v8.cd_v8_to_cstr st.core st.strings (core_read st pname)
            = Except.ok (node.name, (cd_add_node v8 st obj map type).2.strings)) ∧
      (type ≠ v8.cd_v8_type_JSFunction__JS_FUNCTION_TYPE →
        node.type = cd_node_type_t.kCDNodeHidden ∧
        v8.cd_strings_copy st.strings ""
          = Except.ok (node.name, (cd_add_node v8 st obj map type).2.strings)) := by
  have hfin : ∀ (s : cd_state_t) (kind : cd_node_type_t) (name : Int),
      (cd_add_node_finish v8 s obj map type kind name).1 = cd_ok →
      ∃ node, (cd_add_node_finish v8 s obj map type kind name).2.nodes = s.nodes ++ [node] ∧
        node.obj = obj ∧ node.type = kind ∧ node.name = name ∧
        (cd_add_node_finish v8 s obj map type kind name).2.strings = s.strings := by
    intro s kind name h
    unfold cd_add_node_finish at h ⊢
    split
    · rename_i e he
      rw [he] at h
      cases h
    · exact ⟨_, rfl, rfl, rfl, rfl, rfl⟩
  have hne : ∀ e s, ¬ ((cd_error e, s) : cd_error_t × cd_state_t).1 = cd_ok := by
    intro e s h
    cases h
  by_cases hty : type = v8.cd_v8_type_JSFunction__JS_FUNCTION_TYPE
  · cases hpsh : V8_CORE_PTR st obj v8.cd_v8_class_JSFunction__shared__SharedFunctionInfo with
    | none =>
      have heq : cd_add_node v8 st obj map type = (cd_error cd_error_code.kCDErrNotFound, st) := by
        simp only [cd_add_node, hty, hpsh, if_true]
      rw [heq] at hok
      exact absurd hok (hne _ _)
    | some psh =>
      cases hpname : V8_CORE_PTR st (core_read st psh)
          v8.cd_v8_class_SharedFunctionInfo__name__Object with
      | none =>
        have heq : cd_add_node v8 st obj map type
            = (cd_error cd_error_code.kCDErrNotFound, st) := by
          simp only [cd_add_node, hty, hpsh, hpname, if_true]
        rw [heq] at hok
        exact absurd hok (hne _ _)
      | some pname =>
        cases hc : v8.cd_v8_to_cstr st.core st.strings (core_read st pname) with
        | error e =>
          have heq : cd_add_node v8 st obj map type = (cd_error e, st) := by
            simp only [cd_add_node, hty, hpsh, hpname, hc, if_true]
          rw [heq] at hok
          exact absurd hok (hne _ _)
        | ok r =>
          obtain ⟨idx, strings⟩ := r
          have heq : cd_add_node v8 st obj map type =
              cd_add_node_finish v8 { st with strings := strings } obj map type
                cd_node_type_t.kCDNodeClosure idx := by
            simp only [cd_add_node, hty, hpsh, hpname, hc, if_true]
          rw [heq] at hok ⊢
          obtain ⟨node, h1, h2, h3, h4, h5⟩ := hfin _ _ _ hok
          refine ⟨node, h1, h2, fun _ => ⟨h3, psh, pname, rfl, hpname, ?_⟩,
            fun h => absurd hty h⟩
          rw [h4, h5]
          exact hc
  · cases hc : v8.cd_strings_copy st.strings "" with
    | error e =>
      have heq : cd_add_node v8 st obj map type = (cd_error e, st) := by
        simp only [cd_add_node, hty, hc, if_false]
      rw [heq] at hok
      exact absurd hok (hne _ _)
    | ok r =>
      obtain ⟨idx, strings⟩ := r
      have heq : cd_add_node v8 st obj map type =
          cd_add_node_finish v8 { st with strings := strings } obj map type
            cd_node_type_t.kCDNodeHidden idx := by
        simp only [cd_add_node, hty, hc, if_false]
      rw [heq] at hok ⊢
      obtain ⟨node, h1, h2, h3, h4, h5⟩ := hfin _ _ _ hok
      refine ⟨node, h1, h2, fun h => absurd h hty, fun _ => ⟨h3, ?_⟩⟩
      rw [h4, h5]

set_option maxRecDepth 1000000 in
/-- C10, on the function object at 64 of `foo_core`, whose chain function ->
shared-metadata record (96) -> name (112) ends at the string `foo`: the Node has
kind closure and its name is index 0 of the string table, which holds `foo`. -/
theorem add_node_name_kind_foo :
    (cd_add_node demo_v8 (demo_state foo_core []) 64 40 171).1 = cd_ok ∧
    (cd_add_node demo_v8 (demo_state foo_core []) 64 40 171).2.nodes
      = [{ obj := 64, type := cd_node_type_t.kCDNodeClosure, id := 0, name := 0, size := 16 }] ∧
    (cd_add_node demo_v8 (demo_state foo_core []) 64 40 171).2.strings = ["foo"] ∧
    (∃ node, (cd_add_node demo_v8 (demo_state foo_core []) 64 40 171).2.nodes = [node] ∧
      node.type = cd_node_type_t.kCDNodeClosure ∧
      demo_v8.cd_v8_to_cstr foo_core [] 112 = Except.ok (node.name, ["foo"])) := by
  have hok : (cd_add_node demo_v8 (demo_state foo_core []) 64 40 171).1 = cd_ok := by decide
  have hs : (cd_add_node demo_v8 (demo_state foo_core []) 64 40 171).2.strings = ["foo"] := by
    decide
  obtain ⟨node, h1, -, h3, -⟩ := add_node_name_kind demo_v8 (demo_state foo_core []) 64 40 171 hok
  obtain ⟨hk, psh, pname, hpsh, hpname, hc⟩ := h3 rfl
  have e1 : psh = 76 := by
    have : V8_CORE_PTR (demo_state foo_core []) 64 12 = some 76 := by decide
    exact Option.some.inj (hpsh.symm.trans this)
  subst e1
  have e2 : pname = 100 := by
    have : V8_CORE_PTR (demo_state foo_core []) 96 4 = some 100 := by decide
    exact Option.some.inj (hpname.symm.trans this)
  subst e2
  refine ⟨hok, by decide, hs, node, h1, hk, ?_⟩
  rw [hs] at hc
  exact hc

/-! ## What a visit puts in the work queue -/

theorem cd_queue_ptr_queue (v8 : cd_v8_t) (st : cd_state_t) (ptr : Nat) :
    (cd_is_ok (cd_queue_ptr v8 st ptr).1 = false ∧ (cd_queue_ptr v8 st ptr).2.queue = st.queue) ∨
    ((cd_queue_ptr v8 st ptr).1 = cd_ok ∧ v8.V8_IS_HEAPOBJECT ptr = true ∧
      (cd_queue_ptr v8 st ptr).2.queue = st.queue ++ [ptr]) := by
  unfold cd_queue_ptr
  split_ifs with h1 h2
  · exact Or.inl ⟨rfl, rfl⟩
  · exact Or.inl ⟨rfl, rfl⟩
  · exact Or.inr ⟨rfl, by simpa using h1, rfl⟩

theorem child_words_congr {st st' : cd_state_t} (h : st'.core = st.core) (delta : Nat) :
    ∀ (n s e : Nat), child_words st' delta n s e = child_words st delta n s e := by
  intro n
  induction n with
  | zero => intro s e; rfl
  | succ n ih =>
    intro s e
    simp only [child_words, ih, core_read_congr h]

/-- The scan appends, at the tail of the queue, the words of the range in
ascending address order up to the word where it stops; each of them is
heap-object-shaped. -/
theorem cd_queue_space_loop_queue (v8 : cd_v8_t) (delta : Nat) :
    ∀ (n : Nat) (st : cd_state_t) (s e : Nat), ∃ j,
      (cd_queue_space_loop v8 delta n st s e).2.queue
        = st.queue ++ (child_words st delta n s e).take j ∧
      ∀ a ∈ (child_words st delta n s e).take j, v8.V8_IS_HEAPOBJECT a = true := by
  intro n
  induction n with
  | zero => intro st s e; exact ⟨0, by simp [cd_queue_space_loop], by simp⟩
  | succ n ih =>
    intro st s e
    simp only [cd_queue_space_loop, child_words]
    split_ifs with h1 h2
    · refine ⟨0, ?_, by simp⟩
      rcases cd_queue_ptr_queue v8 st (core_read st s) with ⟨-, hq⟩ | ⟨hok, -, -⟩
      · simpa using hq
      · rw [hok] at h2; simp [cd_is_ok, cd_ok] at h2
    · rcases cd_queue_ptr_queue v8 st (core_read st s) with ⟨hf, -⟩ | ⟨-, hsh, hq⟩
      · rw [hf] at h2; simp at h2
      · obtain ⟨j, hj, hall⟩ := ih (cd_queue_ptr v8 st (core_read st s)).2 (s + delta) e
        have hc := child_words_congr (cd_queue_ptr_frame v8 st (core_read st s)).1.core delta
          n (s + delta) e
        rw [hc] at hj hall
        refine ⟨j + 1, ?_, ?_⟩
        · rw [hj, hq]; simp
        · intro a ha
          simp only [List.take_succ_cons, List.mem_cons] at ha
          rcases ha with rfl | ha
          · exact hsh
          · exact hall a ha
    · exact ⟨0, by simp, by simp⟩

theorem cd_add_node_finish_queue (v8 : cd_v8_t) (st : cd_state_t) (obj map : Nat) (type : Int)
    (kind : cd_node_type_t) (name : Int) :
    (cd_add_node_finish v8 st obj map type kind name).2.queue = st.queue := by
  unfold cd_add_node_finish
  split <;> rfl

theorem cd_add_node_queue (v8 : cd_v8_t) (st : cd_state_t) (obj map : Nat) (type : Int) :
    (cd_add_node v8 st obj map type).2.queue = st.queue := by
  unfold cd_add_node
  split_ifs
  · split
    · rfl
    · dsimp only
      split
      · rfl
      · split
        · rfl
        · exact cd_add_node_finish_queue v8 _ obj map type _ _
  · split
    · rfl
    · exact cd_add_node_finish_queue v8 _ obj map type _ _

/-- What the part of a visit after the type is loaded appends to the queue: the
words of one range (none when `start = end`), up to where the scan stops. -/
theorem cd_visit_root_body_queue (v8 : cd_v8_t) (st : cd_state_t) (obj map : Nat) :
    ∃ s e j,
      (cd_visit_root_body v8 st obj map).2.queue
        = st.queue ++ (child_words st (cd_queue_space_delta st) (e - s) s e).take j ∧
      ∀ a ∈ (child_words st (cd_queue_space_delta st) (e - s) s e).take j,
        v8.V8_IS_HEAPOBJECT a = true := by
  have hnone : ∀ r : cd_error_t × cd_state_t, r.2.queue = st.queue →
      ∃ s e j, r.2.queue
        = st.queue ++ (child_words st (cd_queue_space_delta st) (e - s) s e).take j ∧
      ∀ a ∈ (child_words st (cd_queue_space_delta st) (e - s) s e).take j,
        v8.V8_IS_HEAPOBJECT a = true :=
    fun r h => ⟨0, 0, 0, by simp [h], by simp⟩
  have hscan : ∀ (start end_ : Nat) (type : Int), ∃ s e j,
      (cd_add_node v8 (cd_queue_space v8 st start end_).2 obj map type).2.queue
        = st.queue ++ (child_words st (cd_queue_space_delta st) (e - s) s e).take j ∧
      ∀ a ∈ (child_words st (cd_queue_space_delta st) (e - s) s e).take j,
        v8.V8_IS_HEAPOBJECT a = true := by
    intro start end_ type
    obtain ⟨j, hj, hall⟩ := cd_queue_space_loop_queue v8 (cd_queue_space_delta st)
      (end_ - start) st start end_
    refine ⟨start, end_, j, ?_, hall⟩
    rw [cd_add_node_queue]
    exact hj
  unfold cd_visit_root_body
  split
  · exact hnone _ rfl
  · simp only
    split_ifs
    · exact hnone _ (cd_add_node_queue v8 st obj map _)
    · split
      · exact hnone _ rfl
      · split
        · exact hnone _ rfl
        · split
          · exact hnone _ rfl
          · exact hscan _ _ _
    · split
      · exact hnone _ rfl
      · split
        · exact hnone _ rfl
        · exact hscan _ _ _
    · exact hnone _ (cd_add_node_queue v8 st obj map _)

/-- What a visit appends to the queue: nothing when it stops before queueing the
map pointer, and otherwise the map pointer followed by the words of one range in
ascending address order, up to where the scan stops. Every address it appends is
heap-object-shaped. -/
theorem cd_visit_root_queue (v8 : cd_v8_t) (st : cd_state_t) (obj : Nat) :
    (cd_is_ok (cd_visit_root v8 st obj).1 = false ∧
      (cd_visit_root v8 st obj).2.queue = st.queue) ∨
    (∃ pmap s e j,
      V8_CORE_PTR st obj v8.cd_v8_class_HeapObject__map__Map = some pmap ∧
      ¬ (core_read st pmap &&& st.zap_bit = st.zap_bit) ∧
      (cd_visit_root v8 st obj).2.queue = st.queue ++ core_read st pmap ::
        (child_words (cd_visit_root v8 st obj).2 (cd_queue_space_delta st) (e - s) s e).take j ∧
      ∀ a ∈ core_read st pmap ::
        (child_words (cd_visit_root v8 st obj).2 (cd_queue_space_delta st) (e - s) s e).take j,
        v8.V8_IS_HEAPOBJECT a = true) := by
  unfold cd_visit_root
  split
  · exact Or.inl ⟨rfl, rfl⟩
  · rename_i pmap hp
    dsimp only
    split_ifs with hz hq
    · exact Or.inl ⟨rfl, rfl⟩
    · rcases cd_queue_ptr_queue v8 (core_write st pmap (core_read st pmap ||| st.zap_bit))
        (core_read st pmap) with ⟨hf, hqq⟩ | ⟨hok, -, -⟩
      · exact Or.inl ⟨hf, hqq⟩
      · rw [hok] at hq; simp [cd_is_ok, cd_ok] at hq
    · rcases cd_queue_ptr_queue v8 (core_write st pmap (core_read st pmap ||| st.zap_bit))
        (core_read st pmap) with ⟨hf, -⟩ | ⟨-, hsh, hqq⟩
      · rw [hf] at hq; simp at hq
      · obtain ⟨s, e, j, hj, hall⟩ := cd_visit_root_body_queue v8
          (cd_queue_ptr v8 (core_write st pmap (core_read st pmap ||| st.zap_bit))
            (core_read st pmap)).2 obj (core_read st pmap)
        have hfq := (cd_queue_ptr_frame v8
          (core_write st pmap (core_read st pmap ||| st.zap_bit)) (core_read st pmap)).1
        have hfb := (cd_visit_root_body_spec v8
          (cd_queue_ptr v8 (core_write st pmap (core_read st pmap ||| st.zap_bit))
            (core_read st pmap)).2 obj (core_read st pmap)).1
        have hd : cd_queue_space_delta (cd_queue_ptr v8
            (core_write st pmap (core_read st pmap ||| st.zap_bit)) (core_read st pmap)).2
            = cd_queue_space_delta st := by
          rw [cd_queue_space_delta_congr hfq.core]; rfl
        rw [hd, ← child_words_congr hfb.core] at hj hall
        refine Or.inr ⟨pmap, s, e, j, hp, hz, ?_, ?_⟩
        · rw [hj, hqq]
          simp [core_write]
        · intro a ha
          rcases List.mem_cons.1 ha with rfl | ha
          · exact hsh
          · exact hall a ha

/-! ## Name failures, the shape test, and edges -/

theorem cd_visit_roots_iterate_of_step (v8 : cd_v8_t) (P : cd_state_t → Prop)
    (hstep : ∀ st, P st → P (cd_visit_roots_step v8 st))
    (n : Nat) (st : cd_state_t) (h : P st) : P ((cd_visit_roots_step v8)^[n] st) := by
  induction n generalizing st with
  | zero => exact h
  | succ n ih =>
    rw [Function.iterate_succ_apply]
    exact ih _ (hstep st h)

theorem cd_visit_roots_of_step (v8 : cd_v8_t) (P : cd_state_t → Prop)
    (hstep : ∀ st, P st → P (cd_visit_roots_step v8 st))
    (st : cd_state_t) (h : P st) : P (cd_visit_roots v8 st).2 := by
  obtain ⟨n, -, heq⟩ := cd_visit_roots_eq v8 st
  rw [heq]
  exact cd_visit_roots_iterate_of_step v8 P hstep n st h

/-- The finished list after a visit: as before, or with one node for the
candidate at its tail, whose member `edges` nothing has written. -/
theorem cd_visit_root_nodes (v8 : cd_v8_t) (st : cd_state_t) (obj : Nat) :
    (cd_is_ok (cd_visit_root v8 st obj).1 = false ∧
      (cd_visit_root v8 st obj).2.nodes = st.nodes) ∨
    ((cd_visit_root v8 st obj).1 = cd_ok ∧
      ∃ node, (cd_visit_root v8 st obj).2.nodes = st.nodes ++ [node] ∧ node.obj = obj ∧
        node.id = st.node_count ∧ node.edges = none) := by
  rcases cd_visit_root_spec v8 st obj with ⟨h, hf, -⟩ | ⟨pmap, -, -, -, hn⟩
  · exact Or.inl ⟨hf, by rw [h]⟩
  · rcases hn with ⟨hf, h, -⟩ | ⟨hok, -, kind, name, size, h⟩
    · exact Or.inl ⟨hf, h⟩
    · exact Or.inr ⟨hok, _, h, rfl, rfl, rfl⟩

/-- C11. Unresolved function name: for a function-kind object, when a
dereference of the chain object -> shared-metadata record -> name field fails,
or the string conversion of the name fails, `cd_add_node` returns an error (the
error of the failing link: the image-read error of `V8_CORE_PTR`, or the error
`cd_v8_to_cstr` gave) and leaves the state as it was: the Node is not appended
and `node_count` is unchanged. -/
theorem add_node_unresolved_name (v8 : cd_v8_t) (st : cd_state_t) (obj map : Nat) (type : Int)
    (hty : type = v8.cd_v8_type_JSFunction__JS_FUNCTION_TYPE)
    (hfail :
      V8_CORE_PTR st obj v8.cd_v8_class_JSFunction__shared__SharedFunctionInfo = none ∨
      (∃ psh, V8_CORE_PTR st obj v8.cd_v8_class_JSFunction__shared__SharedFunctionInfo
          = some psh ∧
        V8_CORE_PTR st (core_read st psh) v8.cd_v8_class_SharedFunctionInfo__name__Object
          = none) ∨
      (∃ psh pname e, V8_CORE_PTR st obj v8.cd_v8_class_JSFunction__shared__SharedFunctionInfo
          = some psh ∧
        V8_CORE_PTR st (core_read st psh) v8.cd_v8_class_SharedFunctionInfo__name__Object
          = some pname ∧
        v8.cd_v8_to_cstr st.core st.strings (core_read st pname) = Except.error e)) :
    (∃ e, (cd_add_node v8 st obj map type).1 = cd_error e) ∧
    cd_is_ok (cd_add_node v8 st obj map type).1 = false ∧
    (cd_add_node v8 st obj map type).2 = st ∧
    (cd_add_node v8 st obj map type).2.nodes = st.nodes ∧
    (cd_add_node v8 st obj map type).2.node_count = st.node_count := by
  have key : ∃ e, cd_add_node v8 st obj map type = (cd_error e, st) := by
    rcases hfail with h | ⟨psh, h1, h2⟩ | ⟨psh, pname, e, h1, h2, h3⟩
    · exact ⟨cd_error_code.kCDErrNotFound, by simp only [cd_add_node, hty, h, if_true]⟩
    · exact ⟨cd_error_code.kCDErrNotFound, by simp only [cd_add_node, hty, h1, h2, if_true]⟩
    · exact ⟨e, by simp only [cd_add_node, hty, h1, h2, h3, if_true]⟩
  obtain ⟨e, he⟩ := key
  rw [he]
  exact ⟨⟨e, rfl⟩, rfl, rfl, rfl, rfl⟩

set_option maxRecDepth 1000000 in
/-- C11, on the function object at 64 of `nameless_core`: its shared-metadata
pointer is 1000, outside the image, so the name field cannot be read;
`cd_add_node` returns the image-read error and adds no node. -/
theorem add_node_unresolved_name_nameless :
    V8_CORE_PTR (demo_state nameless_core []) 1000 4 = none ∧
    (cd_add_node demo_v8 (demo_state nameless_core []) 64 40 171).1
      = cd_error cd_error_code.kCDErrNotFound ∧
    (cd_add_node demo_v8 (demo_state nameless_core []) 64 40 171).2.nodes = [] ∧
    (cd_add_node demo_v8 (demo_state nameless_core []) 64 40 171).2.node_count = 0 :=
  have h := add_node_unresolved_name demo_v8 (demo_state nameless_core []) 64 40 171 rfl
    (Or.inr (Or.inl ⟨76, by decide, by decide⟩))
  ⟨by decide, by decide, h.2.2.2.1, h.2.2.2.2⟩

theorem AllShaped_step (v8 : cd_v8_t) (st : cd_state_t) (h : AllShaped v8 st) :
    AllShaped v8 (cd_visit_roots_step v8 st) := by
  cases hq : st.queue with
  | nil => rw [cd_visit_roots_step_nil v8 st hq]; exact h
  | cons obj rest =>
    rw [cd_visit_roots_step_cons v8 st obj rest hq]
    have hobj : v8.V8_IS_HEAPOBJECT obj = true := h.1 obj (by rw [hq]; simp)
    have hrest : ∀ a ∈ rest, v8.V8_IS_HEAPOBJECT a = true :=
      fun a ha => h.1 a (by rw [hq]; exact List.mem_cons_of_mem _ ha)
    refine ⟨?_, ?_⟩
    · rcases cd_visit_root_queue v8 (set_queue st rest) obj with
        ⟨-, hqq⟩ | ⟨pmap, s, e, j, -, -, hqq, hall⟩
      · rw [hqq]; exact hrest
      · rw [hqq]
        intro a ha
        rcases List.mem_append.1 ha with ha | ha
        · exact hrest a ha
        · exact hall a ha
    · rcases cd_visit_root_nodes v8 (set_queue st rest) obj with
        ⟨-, hn⟩ | ⟨-, node, hn, hno, -, -⟩
      · rw [hn]; exact h.2
      · rw [hn]
        intro n hn'
        rcases List.mem_append.1 hn' with hn' | hn'
        · exact h.2 n hn'
        · rw [List.mem_singleton.1 hn', hno]; exact hobj

set_option maxRecDepth 1000000 in
/-- C12, as stated, fails. The address 66 fails the shape test of the example
layout (it is not a multiple of 4), but the word at 66 of `misaligned_core` is a
map pointer: with 66 in the work queue, `cd_visit_roots` makes a Node with the
address 66. The function `cd_visit_root` has no shape test of its own. -/
theorem visit_roots_node_for_unshaped_candidate :
    demo_v8.V8_IS_HEAPOBJECT 66 = false ∧
    (cd_visit_roots demo_v8 (demo_state misaligned_core [66])).1 = cd_ok ∧
    (cd_visit_roots demo_v8 (demo_state misaligned_core [66])).2.nodes.map (fun n => n.obj)
      = [66, 40, 16] := by
  have h := cd_visit_roots_of_iterate demo_v8 4 (demo_state misaligned_core [66]) (by decide)
  rw [h]
  decide

/-- C12, amended. The shape test is made when a pointer is queued, not when it is
taken off the queue: `cd_queue_ptr` on an address that fails the test returns the
not-an-object error and leaves the state, and so the work queue, unchanged.
Hence, from a state whose queued and finished addresses all pass the test, every
address in the work queue during `cd_visit_roots` and every address of a Node in
the finished list passes the test, so no Node is appended for an address that
fails it, and `cd_visit_roots` returns `cd_ok()`. -/
theorem visit_roots_keeps_shaped (v8 : cd_v8_t) (st : cd_state_t) (h : AllShaped v8 st) :
    (∀ k, AllShaped v8 ((cd_visit_roots_step v8)^[k] st)) ∧
    AllShaped v8 (cd_visit_roots v8 st).2 ∧
    (∀ n ∈ (cd_visit_roots v8 st).2.nodes, v8.V8_IS_HEAPOBJECT n.obj = true) ∧
    (cd_visit_roots v8 st).1 = cd_ok ∧
    (∀ (s : cd_state_t) (ptr : Nat), v8.V8_IS_HEAPOBJECT ptr = false →
      cd_queue_ptr v8 s ptr = (cd_error cd_error_code.kCDErrNotObject, s)) := by
  have hfin := cd_visit_roots_of_step v8 (AllShaped v8) (AllShaped_step v8) st h
  refine ⟨fun k => cd_visit_roots_iterate_of_step v8 (AllShaped v8) (AllShaped_step v8) k st h,
    hfin, hfin.2, (cd_visit_roots_ok v8 st).1, ?_⟩
  intro s ptr hp
  simp [cd_queue_ptr, hp]

set_option maxRecDepth 1000000 in
/-- C12, amended, on the diamond image with the work queue `[64]`: every Node of
the finished list has a heap-object-shaped address, and queueing the address 66
is refused. -/
theorem visit_roots_keeps_shaped_diamond :
    AllShaped demo_v8 (demo_state diamond_core [64]) ∧
    (∀ n ∈ (cd_visit_roots demo_v8 (demo_state diamond_core [64])).2.nodes,
      demo_v8.V8_IS_HEAPOBJECT n.obj = true) ∧
    (cd_visit_roots demo_v8 (demo_state diamond_core [64])).1 = cd_ok ∧
    cd_queue_ptr demo_v8 (demo_state diamond_core [64]) 66
      = (cd_error cd_error_code.kCDErrNotObject, demo_state diamond_core [64]) :=
  have hs : AllShaped demo_v8 (demo_state diamond_core [64]) := ⟨by decide, by decide⟩
  have h := visit_roots_keeps_shaped demo_v8 (demo_state diamond_core [64]) hs
  ⟨hs, h.2.2.1, h.2.2.2.1, h.2.2.2.2 _ 66 (by decide)⟩

theorem NoEdges_step (v8 : cd_v8_t) (st : cd_state_t) (h : NoEdges st) :
    NoEdges (cd_visit_roots_step v8 st) := by
  cases hq : st.queue with
  | nil => rw [cd_visit_roots_step_nil v8 st hq]; exact h
  | cons obj rest =>
    rw [cd_visit_roots_step_cons v8 st obj rest hq]
    rcases cd_visit_root_nodes v8 (set_queue st rest) obj with
      ⟨-, hn⟩ | ⟨-, node, hn, -, -, hed⟩
    · unfold NoEdges
      rw [hn]; exact h
    · unfold NoEdges
      rw [hn]
      intro n hn'
      rcases List.mem_append.1 hn' with hn' | hn'
      · exact h n hn'
      · rw [List.mem_singleton.1 hn']; exact hed

set_option maxRecDepth 1000000 in
/-- C14, as stated, fails. On the diamond image the child pointer 80 is found in
the slot at 68 of the object at 64, and the map pointer 40 is queued for it; 64,
80 and 40 all become Nodes, and no Edge is registered between them: after the
run the member `edges` of every Node is still what `malloc` left. -/
theorem visit_roots_registers_no_edge :
    core_read (demo_state diamond_core [64]) 68 = 80 ∧
    (cd_visit_root demo_v8 (demo_state diamond_core []) 64).2.queue = [40, 80, 96] ∧
    (cd_visit_roots demo_v8 (demo_state diamond_core [64])).2.nodes.map (fun n => n.obj)
      = [64, 40, 80, 96, 16, 112] ∧
    (cd_visit_roots demo_v8 (demo_state diamond_core [64])).2.nodes.map (fun n => n.edges)
      = [none, none, none, none, none, none] := by
  have h := cd_visit_roots_of_iterate demo_v8 11 (demo_state diamond_core [64]) (by decide)
  rw [h]
  decide

/-- C14, amended. The traversal of `visitor.c` registers no Edge: `cd_queue_ptr`
puts the bare pointer in the work queue (a queue entry is an address, with
neither the owning object nor an edge kind nor a name), a visit appends at most
one Node and never writes the member `edges` of a Node, so when `cd_visit_roots`
starts from a finished list in which no Node has edges, no Node of the resulting
finished list has an incoming or outgoing edge list. -/
theorem visit_roots_no_edges (v8 : cd_v8_t) (st : cd_state_t) (h : NoEdges st) :
    (∀ k, NoEdges ((cd_visit_roots_step v8)^[k] st)) ∧
    NoEdges (cd_visit_roots v8 st).2 ∧
    (∀ n ∈ (cd_visit_roots v8 st).2.nodes, n.edges = none) ∧
    (∀ (s : cd_state_t) (ptr : Nat), (cd_queue_ptr v8 s ptr).2.nodes = s.nodes ∧
      ((cd_queue_ptr v8 s ptr).2.queue = s.queue ∨
        (cd_queue_ptr v8 s ptr).2.queue = s.queue ++ [ptr])) := by
  have hfin := cd_visit_roots_of_step v8 NoEdges (NoEdges_step v8) st h
  refine ⟨fun k => cd_visit_roots_iterate_of_step v8 NoEdges (NoEdges_step v8) k st h,
    hfin, hfin, ?_⟩
  intro s ptr
  refine ⟨(cd_queue_ptr_frame v8 s ptr).2.1, ?_⟩
  rcases cd_queue_ptr_queue v8 s ptr with ⟨-, hq⟩ | ⟨-, -, hq⟩
  · exact Or.inl hq
  · exact Or.inr hq

set_option maxRecDepth 1000000 in
/-- C14, amended, on the diamond image with the work queue `[64]`: the run makes
six Nodes and none of them has edges. -/
theorem visit_roots_no_edges_diamond :
    NoEdges (demo_state diamond_core [64]) ∧
    ((cd_visit_roots_step demo_v8)^[11] (demo_state diamond_core [64])).nodes.length = 6 ∧
    (∀ n ∈ (cd_visit_roots demo_v8 (demo_state diamond_core [64])).2.nodes, n.edges = none) :=
  have hs : NoEdges (demo_state diamond_core [64]) := by
    intro n hn
    cases hn
  ⟨hs, by decide, (visit_roots_no_edges demo_v8 (demo_state diamond_core [64]) hs).2.2.1⟩

/-- C19. Append-only finished list: after a visit, after an iteration of the
loop, after any number of iterations and after the whole of `cd_visit_roots`,
the finished list is the list before with new Nodes appended at its tail (so
every Node already in it is still there, at the same place, with the same
address, id, name, kind and size); a visit and an iteration append at most one
Node. -/
theorem finished_list_append_only (v8 : cd_v8_t) (st : cd_state_t) :
    (∀ obj, ∃ l, (cd_visit_root v8 st obj).2.nodes = st.nodes ++ l ∧ l.length ≤ 1) ∧
    (∃ l, (cd_visit_roots_step v8 st).nodes = st.nodes ++ l ∧ l.length ≤ 1) ∧
    (∀ k, ∃ l, ((cd_visit_roots_step v8)^[k] st).nodes = st.nodes ++ l ∧ l.length ≤ k) ∧
    (∃ l, (cd_visit_roots v8 st).2.nodes = st.nodes ++ l) := by
  have hvisit : ∀ (s : cd_state_t) (obj : Nat),
      ∃ l, (cd_visit_root v8 s obj).2.nodes = s.nodes ++ l ∧ l.length ≤ 1 := by
    intro s obj
    rcases cd_visit_root_nodes v8 s obj with ⟨-, hn⟩ | ⟨-, node, hn, -, -, -⟩
    · exact ⟨[], by simp [hn], by simp⟩
    · exact ⟨[node], hn, by simp⟩
  have hstep : ∀ s : cd_state_t,
      ∃ l, (cd_visit_roots_step v8 s).nodes = s.nodes ++ l ∧ l.length ≤ 1 := by
    intro s
    cases hq : s.queue with
    | nil => rw [cd_visit_roots_step_nil v8 s hq]; exact ⟨[], by simp, by simp⟩
    | cons obj rest =>
      rw [cd_visit_roots_step_cons v8 s obj rest hq]
      exact hvisit (set_queue s rest) obj
  have hiter : ∀ k, ∃ l, ((cd_visit_roots_step v8)^[k] st).nodes = st.nodes ++ l ∧
      l.length ≤ k := by
    intro k
    induction k with
    | zero => exact ⟨[], by simp, by simp⟩
    | succ k ih =>
      obtain ⟨l, hl, hlen⟩ := ih
      obtain ⟨l', hl', hlen'⟩ := hstep ((cd_visit_roots_step v8)^[k] st)
      refine ⟨l ++ l', ?_, ?_⟩
      · rw [Function.iterate_succ_apply', hl', hl, List.append_assoc]
      · rw [List.length_append]; omega
  refine ⟨hvisit st, hstep st, hiter, ?_⟩
  obtain ⟨n, -, heq⟩ := cd_visit_roots_eq v8 st
  obtain ⟨l, hl, -⟩ := hiter n
  exact ⟨l, by rw [heq]; exact hl⟩

/-! ## Marking, cycles and the image -/

theorem MarkedOut_visit (v8 : cd_v8_t) (obj : Nat) (st : cd_state_t) (obj' : Nat)
    (h : MarkedOut v8 obj st) : MarkedOut v8 obj (cd_visit_root v8 st obj').2 := by
  rcases cd_visit_root_spec v8 st obj' with ⟨h2, -, -⟩ | ⟨pmap, hp, hz, hf, hn⟩
  · rw [h2]; exact h
  · obtain ⟨⟨p, hp1, hp2⟩, hout⟩ := h
    have hlen : (cd_visit_root v8 st obj').2.core.mem.length = st.core.mem.length := by
      rw [hf.core]; simp [core_write]
    refine ⟨⟨p, by rw [V8_CORE_PTR_congr hlen]; exact hp1, ?_⟩, ?_⟩
    · rw [core_read_of_frame_write hf (V8_CORE_PTR_lt hp1), hf.zap_bit]
      split_ifs
      · exact lor_land_self _ _
      · exact hp2
    · rcases hn with ⟨-, hnodes, -⟩ | ⟨-, -, kind, name, size, hnodes⟩
      · rw [hnodes]; exact hout
      · rw [hnodes, List.map_append, List.mem_append]
        rintro (hin | hin)
        · exact hout hin
        · simp only [List.map_cons, List.map_nil, List.mem_singleton] at hin
          subst hin
          rw [hp] at hp1
          cases hp1
          exact hz hp2

theorem MarkedOut_step (v8 : cd_v8_t) (obj : Nat) (st : cd_state_t)
    (h : MarkedOut v8 obj st) : MarkedOut v8 obj (cd_visit_roots_step v8 st) := by
  cases hq : st.queue with
  | nil => rw [cd_visit_roots_step_nil v8 st hq]; exact h
  | cons o rest =>
    rw [cd_visit_roots_step_cons v8 st o rest hq]
    exact MarkedOut_visit v8 obj (set_queue st rest) o h

/-- A visit that gets past the zap test leaves the map field zapped. -/
theorem cd_visit_root_marks (v8 : cd_v8_t) (st : cd_state_t) (obj pmap : Nat)
    (hp : V8_CORE_PTR st obj v8.cd_v8_class_HeapObject__map__Map = some pmap)
    (hz : ¬ (core_read st pmap &&& st.zap_bit = st.zap_bit)) :
    V8_CORE_PTR (cd_visit_root v8 st obj).2 obj v8.cd_v8_class_HeapObject__map__Map
      = some pmap ∧
    (cd_visit_root v8 st obj).2.zap_bit = st.zap_bit ∧
    core_read (cd_visit_root v8 st obj).2 pmap = core_read st pmap ||| st.zap_bit := by
  rcases cd_visit_root_spec v8 st obj with ⟨-, -, h⟩ | ⟨pmap', hp', -, hf, -⟩
  · exact absurd (h pmap hp) hz
  · rw [hp] at hp'
    cases hp'
    have hlen : (cd_visit_root v8 st obj).2.core.mem.length = st.core.mem.length := by
      rw [hf.core]; simp [core_write]
    refine ⟨by rw [V8_CORE_PTR_congr hlen]; exact hp, hf.zap_bit, ?_⟩
    rw [core_read_of_frame_write hf (V8_CORE_PTR_lt hp), if_pos rfl]

/-- An object whose visit failed after its map field was zapped is not a node at
the end of the run, unless it was one before. -/
theorem mark_before_processing_aux (v8 : cd_v8_t) (st : cd_state_t) (obj pmap : Nat)
    (hp : V8_CORE_PTR st obj v8.cd_v8_class_HeapObject__map__Map = some pmap)
    (hz : ¬ (core_read st pmap &&& st.zap_bit = st.zap_bit))
    (hfail : cd_is_ok (cd_visit_root v8 st obj).1 = false)
    (hout : obj ∉ st.nodes.map (fun n => n.obj)) :
    obj ∉ (cd_visit_roots v8 (cd_visit_root v8 st obj).2).2.nodes.map (fun n => n.obj) := by
  obtain ⟨h1, h2, h3⟩ := cd_visit_root_marks v8 st obj pmap hp hz
  have hm : MarkedOut v8 obj (cd_visit_root v8 st obj).2 := by
    refine ⟨⟨pmap, h1, by rw [h3, h2]; exact lor_land_self _ _⟩, ?_⟩
    rw [(cd_visit_root_fail_nodes v8 st obj hfail).1]
    exact hout
  exact (cd_visit_roots_of_step v8 (MarkedOut v8 obj) (MarkedOut_step v8 obj) _ hm).2

/-- C15. Mark before processing: for a candidate whose map field is readable and
does not carry the zap bit, after `cd_visit_root` returns, with `cd_ok()` or with
any error, the map field holds the original map value with the zap bit set. Hence
when that visit fails and the object was not a Node before, it is not a Node
after any number of further iterations of the loop, nor at the end of
`cd_visit_roots`. -/
theorem mark_before_processing (v8 : cd_v8_t) (st : cd_state_t) (obj pmap : Nat)
    (hp : V8_CORE_PTR st obj v8.cd_v8_class_HeapObject__map__Map = some pmap)
    (hz : ¬ (core_read st pmap &&& st.zap_bit = st.zap_bit)) :
    core_read (cd_visit_root v8 st obj).2 pmap = core_read st pmap ||| st.zap_bit ∧
    core_read (cd_visit_root v8 st obj).2 pmap &&& st.zap_bit = st.zap_bit ∧
    (cd_is_ok (cd_visit_root v8 st obj).1 = false → obj ∉ st.nodes.map (fun n => n.obj) →
      (∀ k, obj ∉ ((cd_visit_roots_step v8)^[k] (cd_visit_root v8 st obj).2).nodes.map
        (fun n => n.obj)) ∧
      obj ∉ (cd_visit_roots v8 (cd_visit_root v8 st obj).2).2.nodes.map (fun n => n.obj)) := by
  obtain ⟨h1, h2, h3⟩ := cd_visit_root_marks v8 st obj pmap hp hz
  refine ⟨h3, by rw [h3]; exact lor_land_self _ _, ?_⟩
  intro hfail hout
  have hm : MarkedOut v8 obj (cd_visit_root v8 st obj).2 := by
    refine ⟨⟨pmap, h1, by rw [h3, h2]; exact lor_land_self _ _⟩, ?_⟩
    rw [(cd_visit_root_fail_nodes v8 st obj hfail).1]
    exact hout
  exact ⟨fun k => (cd_visit_roots_iterate_of_step v8 (MarkedOut v8 obj) (MarkedOut_step v8 obj)
      k _ hm).2,
    (cd_visit_roots_of_step v8 (MarkedOut v8 obj) (MarkedOut_step v8 obj) _ hm).2⟩

set_option maxRecDepth 1000000 in
/-- C15, on the diamond image with an allocator whose first allocation fails:
the visit of 64 zaps its map field (40 becomes 42) and then fails with
`kCDErrNoMem`; the work queue still holds 80 and 64, and the run that follows
visits 64 once more and makes no Node for it. -/
theorem mark_before_processing_diamond :
    core_read (cd_visit_root oom_v8 (demo_state diamond_core [80, 64]) 64).2 64 = 42 ∧
    (cd_visit_root oom_v8 (demo_state diamond_core [80, 64]) 64).1
      = cd_error cd_error_code.kCDErrNoMem ∧
    64 ∉ (cd_visit_roots oom_v8
      (cd_visit_root oom_v8 (demo_state diamond_core [80, 64]) 64).2).2.nodes.map
        (fun n => n.obj) :=
  have h := mark_before_processing oom_v8 (demo_state diamond_core [80, 64]) 64 64
    (by decide) (by decide)
  ⟨by decide, by decide, (h.2.2 (by decide) (by decide)).2⟩

/-- After a successful first visit of the only queued candidate, the run ends
with exactly one node for it. -/
theorem count_one_of_first_visit (v8 : cd_v8_t) (st : cd_state_t) (obj : Nat) (rest : List Nat)
    (hq : st.queue = obj :: rest) (hz : Zapped v8 st)
    (hok : (cd_visit_root v8 (set_queue st rest) obj).1 = cd_ok) :
    ((cd_visit_roots v8 st).2.nodes.map (fun n => n.obj)).count obj = 1 := by
  have hz' : Zapped v8 (cd_visit_roots v8 st).2 :=
    cd_visit_roots_invariant v8 (Zapped v8) (fun _ _ h => h)
      (fun s o h => Zapped_visit v8 s o h) st hz
  apply List.count_eq_one_of_mem hz'.2
  rw [cd_visit_roots_cons v8 st obj rest hq]
  have hmem := cd_visit_root_ok_mem v8 (set_queue st rest) obj hok
  obtain ⟨n, -, heq⟩ := cd_visit_roots_eq v8 (cd_visit_root v8 (set_queue st rest) obj).2
  rw [heq]
  exact (List.IsPrefix.map _ (cd_visit_roots_iterate_nodes_mono v8 n _)).subset hmem

set_option maxRecDepth 1000000 in
/-- C13, as stated, fails for the function kind. The image `cycle_fn_core` holds
one object X, at 64, of the general-object kind `JS_FUNCTION`, with a well-formed
map (heap-object-shaped, type and size readable); the words of its child range
are 64, 0, 0, 0, so its only heap-object-shaped child word is X itself. With X in
the work queue the run ends, but the name of the function cannot be resolved, so
the visit of X fails and the finished list holds no Node for X. -/
theorem cycle_function_without_node :
    is_general_object demo_v8 171 = true ∧
    demo_v8.V8_IS_HEAPOBJECT 40 = true ∧
    child_words (demo_state cycle_fn_core []) 4 16 68 84 = [64, 0, 0, 0] ∧
    (cd_visit_roots demo_v8 (demo_state cycle_fn_core [64])).1 = cd_ok ∧
    (cd_visit_roots demo_v8 (demo_state cycle_fn_core [64])).2.nodes.map (fun n => n.obj)
      = [40, 16] := by
  have h := cd_visit_roots_of_iterate demo_v8 5 (demo_state cycle_fn_core [64]) (by decide)
  rw [h]
  decide

/-- With a work queue that holds only X and an empty finished list, the run ends
with at most one node for X: one when the first visit of X succeeds, none when it
fails. -/
theorem cycle_nodes_of_first_visit (v8 : cd_v8_t) (st : cd_state_t) (X : Nat)
    (hq : st.queue = [X]) (hn : st.nodes = []) :
    ((cd_visit_roots v8 st).2.nodes.map (fun n => n.obj)).count X ≤ 1 ∧
    ((cd_visit_root v8 (set_queue st []) X).1 = cd_ok →
      ((cd_visit_roots v8 st).2.nodes.map (fun n => n.obj)).count X = 1) ∧
    (cd_is_ok (cd_visit_root v8 (set_queue st []) X).1 = false →
      ((cd_visit_roots v8 st).2.nodes.map (fun n => n.obj)).count X = 0) := by
  have hz : Zapped v8 st := ⟨by rw [hn]; simp, by rw [hn]; simp⟩
  have hz' : Zapped v8 (cd_visit_roots v8 st).2 :=
    cd_visit_roots_invariant v8 (Zapped v8) (fun _ _ h => h)
      (fun s o h => Zapped_visit v8 s o h) st hz
  refine ⟨List.nodup_iff_count_le_one.1 hz'.2 X,
    count_one_of_first_visit v8 st X [] hq hz, ?_⟩
  intro hfail
  rw [List.count_eq_zero, cd_visit_roots_cons v8 st X [] hq]
  rcases cd_visit_root_spec v8 (set_queue st []) X with ⟨h2, -, -⟩ | ⟨pmap, hp, hzz, -, -⟩
  · rw [h2, cd_visit_roots_nil v8 (set_queue st []) rfl]
    show X ∉ st.nodes.map (fun n => n.obj)
    rw [hn]; simp
  · have h := mark_before_processing_aux v8 (set_queue st []) X pmap hp hzz hfail
      (by show X ∉ st.nodes.map (fun n => n.obj); rw [hn]; simp)
    exact h

theorem core_read_core_write (st : cd_state_t) (p v a : Nat) :
    core_read (core_write st p v) a
      = if p = a ∧ p < st.core.mem.length then v else core_read st a := by
  unfold core_read core_write
  simp only
  rw [List.getD_eq_getElem?_getD, List.getD_eq_getElem?_getD, List.getElem?_set]
  by_cases h1 : p = a
  · subst h1
    by_cases h2 : p < st.core.mem.length
    · simp [h2]
    · simp [h2, List.getElem?_eq_none (Nat.le_of_not_lt h2)]
  · simp [h1]

/-- The image after `k` iterations of the loop, against the image at the start:
same size, and every word is the word at the start, or that word with the zap bit
set, at the map field of a candidate one of these iterations took off the queue. -/
theorem image_frame_iterate (v8 : cd_v8_t) (st : cd_state_t) (n : Nat) :
    ((cd_visit_roots_step v8)^[n] st).core.is_x64 = st.core.is_x64 ∧
    ((cd_visit_roots_step v8)^[n] st).core.mem.length = st.core.mem.length ∧
    ((cd_visit_roots_step v8)^[n] st).zap_bit = st.zap_bit ∧
    ∀ a, core_read ((cd_visit_roots_step v8)^[n] st) a = core_read st a ∨
      (core_read ((cd_visit_roots_step v8)^[n] st) a = core_read st a ||| st.zap_bit ∧
        ∃ k obj rest, k < n ∧ ((cd_visit_roots_step v8)^[k] st).queue = obj :: rest ∧
          V8_CORE_PTR st obj v8.cd_v8_class_HeapObject__map__Map = some a) := by
  induction n with
  | zero => exact ⟨rfl, rfl, rfl, fun a => Or.inl rfl⟩
  | succ n ih =>
    obtain ⟨hx, hlen, hzap, hwords⟩ := ih
    have hweak : ∀ a, core_read ((cd_visit_roots_step v8)^[n] st) a = core_read st a ∨
        (core_read ((cd_visit_roots_step v8)^[n] st) a = core_read st a ||| st.zap_bit ∧
          ∃ k obj rest, k < n + 1 ∧ ((cd_visit_roots_step v8)^[k] st).queue = obj :: rest ∧
            V8_CORE_PTR st obj v8.cd_v8_class_HeapObject__map__Map = some a) := by
      intro a
      rcases hwords a with h | ⟨h, k, obj, rest, hk, hq, hp⟩
      · exact Or.inl h
      · exact Or.inr ⟨h, k, obj, rest, by omega, hq, hp⟩
    rw [Function.iterate_succ_apply']
    generalize hs : (cd_visit_roots_step v8)^[n] st = s at hx hlen hzap hwords hweak
    cases hq : s.queue with
    | nil =>
      rw [cd_visit_roots_step_nil v8 s hq]
      exact ⟨hx, hlen, hzap, hweak⟩
    | cons obj rest =>
      rw [cd_visit_roots_step_cons v8 s obj rest hq]
      rcases cd_visit_root_spec v8 (set_queue s rest) obj with
        ⟨h2, -, -⟩ | ⟨pmap, hp, hz, hf, -⟩
      · rw [h2]
        exact ⟨hx, hlen, hzap, hweak⟩
      · have hp' : V8_CORE_PTR st obj v8.cd_v8_class_HeapObject__map__Map = some pmap := by
          have hc := @V8_CORE_PTR_congr st (set_queue s rest) hlen obj
            v8.cd_v8_class_HeapObject__map__Map
          rw [← hc]
          exact hp
        refine ⟨by rw [hf.core]; exact hx, by rw [hf.core]; simpa [core_write] using hlen,
          hf.zap_bit.trans hzap, ?_⟩
        intro a
        have hread : core_read (cd_visit_root v8 (set_queue s rest) obj).2 a
            = core_read (core_write (set_queue s rest) pmap
                (core_read (set_queue s rest) pmap ||| (set_queue s rest).zap_bit)) a :=
          core_read_congr hf.core a
        rw [hread, core_read_core_write]
        by_cases ha : pmap = a ∧ pmap < (set_queue s rest).core.mem.length
        · rw [if_pos ha]
          obtain ⟨rfl, -⟩ := ha
          have hz' : ¬ (core_read s pmap &&& st.zap_bit = st.zap_bit) := by
            rw [← hzap]; exact hz
          have hsame : core_read s pmap = core_read st pmap := by
            rcases hwords pmap with h | ⟨h, -⟩
            · exact h
            · exact absurd (by rw [h]; exact lor_land_self _ _) hz'
          refine Or.inr ⟨?_, n, obj, rest, by omega, by rw [hs]; exact hq, hp'⟩
          show core_read s pmap ||| s.zap_bit = core_read st pmap ||| st.zap_bit
          rw [hsame, hzap]
        · rw [if_neg ha]
          exact hweak a

/-- C16. Image frame: `cd_visit_roots` keeps the size of the image, and every
word of the image afterwards is either the word before, or the word before
bitwise-ORed with `zap_bit`, and the latter only at the map field of a candidate
that the loop took off the work queue. No bit of the image is cleared. -/
theorem image_frame (v8 : cd_v8_t) (st : cd_state_t) :
    (cd_visit_roots v8 st).2.core.is_x64 = st.core.is_x64 ∧
    (cd_visit_roots v8 st).2.core.mem.length = st.core.mem.length ∧
    (∀ a, core_read (cd_visit_roots v8 st).2 a = core_read st a ∨
      (core_read (cd_visit_roots v8 st).2 a = core_read st a ||| st.zap_bit ∧
        ∃ k obj rest, ((cd_visit_roots_step v8)^[k] st).queue = obj :: rest ∧
          V8_CORE_PTR st obj v8.cd_v8_class_HeapObject__map__Map = some a)) ∧
    (∀ a i, (core_read st a).testBit i = true →
      (core_read (cd_visit_roots v8 st).2 a).testBit i = true) := by
  obtain ⟨n, -, heq⟩ := cd_visit_roots_eq v8 st
  obtain ⟨hx, hlen, -, hwords⟩ := image_frame_iterate v8 st n
  rw [heq]
  refine ⟨hx, hlen, ?_, ?_⟩
  · intro a
    rcases hwords a with h | ⟨h, k, obj, rest, -, hq, hp⟩
    · exact Or.inl h
    · exact Or.inr ⟨h, k, obj, rest, hq, hp⟩
  · intro a i hi
    rcases hwords a with h | ⟨h, -⟩
    · show (core_read ((cd_visit_roots_step v8)^[n] st) a).testBit i = true
      rw [h]; exact hi
    · show (core_read ((cd_visit_roots_step v8)^[n] st) a).testBit i = true
      rw [h, Nat.testBit_lor, hi]
      rfl

/-! ## Leaf tags, queue order, and the ignored result of the scan -/

theorem cd_visit_root_of_mark (v8 : cd_v8_t) (st : cd_state_t) (obj pmap : Nat)
    (hp : V8_CORE_PTR st obj v8.cd_v8_class_HeapObject__map__Map = some pmap)
    (hz : ¬ (core_read st pmap &&& st.zap_bit = st.zap_bit)) :
    cd_visit_root v8 st obj =
      if !cd_is_ok (cd_visit_root_mark v8 st pmap).1 then cd_visit_root_mark v8 st pmap
      else cd_visit_root_body v8 (cd_visit_root_mark v8 st pmap).2 obj (core_read st pmap) := by
  unfold cd_visit_root cd_visit_root_mark
  rw [hp]
  simp only [if_neg hz]

theorem cd_visit_root_mark_ok (v8 : cd_v8_t) (st : cd_state_t) (pmap : Nat)
    (h : (cd_visit_root_mark v8 st pmap).1 = cd_ok) :
    (cd_visit_root_mark v8 st pmap).2.queue = st.queue ++ [core_read st pmap] ∧
    (cd_visit_root_mark v8 st pmap).2.nodes = st.nodes ∧
    (cd_visit_root_mark v8 st pmap).2.node_count = st.node_count ∧
    (cd_visit_root_mark v8 st pmap).2.core.mem.length = st.core.mem.length := by
  unfold cd_visit_root_mark at h ⊢
  have hf := cd_queue_ptr_frame v8 (core_write st pmap (core_read st pmap ||| st.zap_bit))
    (core_read st pmap)
  refine ⟨?_, hf.2.1, hf.2.2, by rw [hf.1.core]; simp [core_write]⟩
  rcases cd_queue_ptr_queue v8 (core_write st pmap (core_read st pmap ||| st.zap_bit))
    (core_read st pmap) with ⟨hfail, -⟩ | ⟨-, -, hq⟩
  · rw [h] at hfail; cases hfail
  · exact hq

set_option maxRecDepth 1000000 in
/-- C17, as stated, fails. The object at 64 of `string_core` is unvisited and its
type tag is 5, a string type. With an allocator whose first allocation fails, its
visit returns `kCDErrNoMem`: no candidate is appended and no Node is made. With a
size oracle that fails for string types the map pointer is appended, but
`cd_add_node` returns the oracle's error and no Node is made. -/
theorem leaf_visit_without_node :
    core_read (demo_state string_core []) 48 % 256 = 5 ∧
    (cd_visit_root oom_v8 (demo_state string_core []) 64).1
      = cd_error cd_error_code.kCDErrNoMem ∧
    (cd_visit_root oom_v8 (demo_state string_core []) 64).2.queue = [] ∧
    (cd_visit_root oom_v8 (demo_state string_core []) 64).2.nodes = [] ∧
    (cd_visit_root nosize_v8 (demo_state string_core []) 64).1
      = cd_error (cd_error_code.kCDErrOther 1) ∧
    (cd_visit_root nosize_v8 (demo_state string_core []) 64).2.queue = [40] ∧
    (cd_visit_root nosize_v8 (demo_state string_core []) 64).2.nodes = [] := by
  decide

/-- C17, amended. Leaf tags: for an unvisited object whose map pointer is queued
(it is heap-object-shaped and the allocation succeeds) and whose type tag is a
string type or is neither a general-object kind nor the Map kind, `cd_visit_root`
appends exactly one candidate to the work queue, the map pointer, scans no child
range, and returns what `cd_add_node` returns for the object: a Node is
materialized when `cd_add_node` succeeds (the name and size lookups succeed). -/
theorem leaf_tag_visit (v8 : cd_v8_t) (st : cd_state_t) (obj pmap ptype : Nat)
    (hp : V8_CORE_PTR st obj v8.cd_v8_class_HeapObject__map__Map = some pmap)
    (hz : ¬ (core_read st pmap &&& st.zap_bit = st.zap_bit))
    (hq : (cd_visit_root_mark v8 st pmap).1 = cd_ok)
    (hpt : V8_CORE_PTR st (core_read st pmap) v8.cd_v8_class_Map__instance_attributes__int
      = some ptype)
    (hleaf : ((core_read (cd_visit_root_mark v8 st pmap).2 ptype % 256 : Nat) : Int)
        < v8.cd_v8_FirstNonstringType ∨
      (is_general_object v8
          ((core_read (cd_visit_root_mark v8 st pmap).2 ptype % 256 : Nat) : Int) = false ∧
        ((core_read (cd_visit_root_mark v8 st pmap).2 ptype % 256 : Nat) : Int)
          ≠ v8.cd_v8_type_Map__MAP_TYPE)) :
    cd_visit_root v8 st obj =
      cd_add_node v8 (cd_visit_root_mark v8 st pmap).2 obj (core_read st pmap)
        ((core_read (cd_visit_root_mark v8 st pmap).2 ptype % 256 : Nat) : Int) ∧
    (cd_visit_root v8 st obj).2.queue = st.queue ++ [core_read st pmap] ∧
    ((cd_visit_root v8 st obj).1 = cd_ok →
      ∃ node, (cd_visit_root v8 st obj).2.nodes = st.nodes ++ [node] ∧ node.obj = obj) := by
  obtain ⟨hmq, -, -, hlen⟩ := cd_visit_root_mark_ok v8 st pmap hq
  have hpt' : V8_CORE_PTR (cd_visit_root_mark v8 st pmap).2 (core_read st pmap)
      v8.cd_v8_class_Map__instance_attributes__int = some ptype := by
    rw [V8_CORE_PTR_congr hlen]; exact hpt
  have heq : cd_visit_root v8 st obj =
      cd_add_node v8 (cd_visit_root_mark v8 st pmap).2 obj (core_read st pmap)
        ((core_read (cd_visit_root_mark v8 st pmap).2 ptype % 256 : Nat) : Int) := by
    rw [cd_visit_root_of_mark v8 st obj pmap hp hz, hq]
    simp only [cd_is_ok, cd_ok, Bool.not_true, Bool.false_eq_true, if_false]
    unfold cd_visit_root_body
    rw [hpt']
    rcases hleaf with h | ⟨h1, h2⟩
    · simp only [h, if_true]
    · by_cases hs : ((core_read (cd_visit_root_mark v8 st pmap).2 ptype % 256 : Nat) : Int)
          < v8.cd_v8_FirstNonstringType
      · simp only [hs, if_true]
      · simp only [hs, h1, h2, if_false, Bool.false_eq_true]
  refine ⟨heq, ?_, ?_⟩
  · rw [heq, cd_add_node_queue, hmq]
  · intro hok
    rcases cd_visit_root_nodes v8 st obj with ⟨hf, -⟩ | ⟨-, node, hn, hno, -, -⟩
    · rw [hok] at hf; cases hf
    · exact ⟨node, hn, hno⟩

set_option maxRecDepth 1000000 in
/-- C17, amended, on the string object at 64 of `string_core`: the words at 68
and 72 hold heap pointers, but the visit queues only the map pointer 40 and makes
a Node for 64. -/
theorem leaf_tag_visit_string :
    core_read (demo_state string_core []) 68 = 80 ∧
    (cd_visit_root demo_v8 (demo_state string_core []) 64).1 = cd_ok ∧
    (cd_visit_root demo_v8 (demo_state string_core []) 64).2.queue = [40] ∧
    (∃ node, (cd_visit_root demo_v8 (demo_state string_core []) 64).2.nodes = [node] ∧
      node.obj = 64) :=
  have h := leaf_tag_visit demo_v8 (demo_state string_core []) 64 64 48
    (by decide) (by decide) (by decide) (by decide) (Or.inl (by decide))
  ⟨by decide, by decide, h.2.1, h.2.2 (by decide)⟩

theorem cd_queue_ptr_strings (v8 : cd_v8_t) (st : cd_state_t) (ptr : Nat) :
    (cd_queue_ptr v8 st ptr).2.strings = st.strings := by
  unfold cd_queue_ptr
  split_ifs <;> rfl

theorem cd_queue_space_loop_strings (v8 : cd_v8_t) (delta : Nat) :
    ∀ (n : Nat) (st : cd_state_t) (s e : Nat),
      (cd_queue_space_loop v8 delta n st s e).2.strings = st.strings := by
  intro n
  induction n with
  | zero => intro st s e; rfl
  | succ n ih =>
    intro st s e
    simp only [cd_queue_space_loop]
    split_ifs
    · exact cd_queue_ptr_strings v8 st _
    · rw [ih]; exact cd_queue_ptr_strings v8 st _
    · rfl

theorem cd_add_node_finish_congr (v8 : cd_v8_t) (s s' : cd_state_t) (obj map : Nat)
    (type : Int) (kind : cd_node_type_t) (name : Int)
    (hc : s'.core = s.core) (hs : s'.strings = s.strings) (hn : s'.nodes = s.nodes)
    (hk : s'.node_count = s.node_count) :
    (cd_add_node_finish v8 s' obj map type kind name).1
      = (cd_add_node_finish v8 s obj map type kind name).1 ∧
    (cd_add_node_finish v8 s' obj map type kind name).2.nodes
      = (cd_add_node_finish v8 s obj map type kind name).2.nodes ∧
    (cd_add_node_finish v8 s' obj map type kind name).2.node_count
      = (cd_add_node_finish v8 s obj map type kind name).2.node_count ∧
    (cd_add_node_finish v8 s' obj map type kind name).2.strings
      = (cd_add_node_finish v8 s obj map type kind name).2.strings := by
  unfold cd_add_node_finish
  rw [hc]
  cases v8.cd_v8_get_obj_size s.core map type with
  | error e => exact ⟨rfl, hn, hk, hs⟩
  | ok size =>
    refine ⟨rfl, ?_, ?_, hs⟩
    · show s'.nodes ++ _ = s.nodes ++ _
      rw [hn, hk]
    · show s'.node_count + 1 = s.node_count + 1
      rw [hk]

/-- The result of `cd_add_node` and what it does to the finished list depend on
the image, the string table, the finished list and the counter only, not on the
work queue. -/
theorem cd_add_node_congr (v8 : cd_v8_t) (s s' : cd_state_t) (obj map : Nat) (type : Int)
    (hc : s'.core = s.core) (hs : s'.strings = s.strings) (hn : s'.nodes = s.nodes)
    (hk : s'.node_count = s.node_count) :
    (cd_add_node v8 s' obj map type).1 = (cd_add_node v8 s obj map type).1 ∧
    (cd_add_node v8 s' obj map type).2.nodes = (cd_add_node v8 s obj map type).2.nodes ∧
    (cd_add_node v8 s' obj map type).2.node_count
      = (cd_add_node v8 s obj map type).2.node_count ∧
    (cd_add_node v8 s' obj map type).2.strings = (cd_add_node v8 s obj map type).2.strings := by
  have h1 : ∀ ptr off, V8_CORE_PTR s' ptr off = V8_CORE_PTR s ptr off :=
    V8_CORE_PTR_congr (by rw [hc])
  have h2 : ∀ p, core_read s' p = core_read s p := core_read_congr hc
  by_cases hty : type = v8.cd_v8_type_JSFunction__JS_FUNCTION_TYPE
  · cases hA : V8_CORE_PTR s obj v8.cd_v8_class_JSFunction__shared__SharedFunctionInfo with
    | none =>
      have e1 : cd_add_node v8 s obj map type = (cd_error cd_error_code.kCDErrNotFound, s) := by
        simp only [cd_add_node, hty, hA, if_true]
      have e2 : cd_add_node v8 s' obj map type
          = (cd_error cd_error_code.kCDErrNotFound, s') := by
        simp only [cd_add_node, hty, h1, hA, if_true]
      rw [e1, e2]
      exact ⟨rfl, hn, hk, hs⟩
    | some psh =>
      cases hB : V8_CORE_PTR s (core_read s psh)
          v8.cd_v8_class_SharedFunctionInfo__name__Object with
      | none =>
        have e1 : cd_add_node v8 s obj map type
            = (cd_error cd_error_code.kCDErrNotFound, s) := by
          simp only [cd_add_node, hty, hA, hB, if_true]
        have e2 : cd_add_node v8 s' obj map type
            = (cd_error cd_error_code.kCDErrNotFound, s') := by
          simp only [cd_add_node, hty, h1, h2, hA, hB, if_true]
        rw [e1, e2]
        exact ⟨rfl, hn, hk, hs⟩
      | some pname =>
        cases hC : v8.cd_v8_to_cstr s.core s.strings (core_read s pname) with
        | error e =>
          have e1 : cd_add_node v8 s obj map type = (cd_error e, s) := by
            simp only [cd_add_node, hty, hA, hB, hC, if_true]
          have e2 : cd_add_node v8 s' obj map type = (cd_error e, s') := by
            simp only [cd_add_node, hty, h1, h2, hc, hs, hA, hB, hC, if_true]
          rw [e1, e2]
          exact ⟨rfl, hn, hk, hs⟩
        | ok r =>
          obtain ⟨idx, strings⟩ := r
          have e1 : cd_add_node v8 s obj map type =
              cd_add_node_finish v8 { s with strings := strings } obj map type
                cd_node_type_t.kCDNodeClosure idx := by
            simp only [cd_add_node, hty, hA, hB, hC, if_true]
          have e2 : cd_add_node v8 s' obj map type =
              cd_add_node_finish v8 { s' with strings := strings } obj map type
                cd_node_type_t.kCDNodeClosure idx := by
            simp only [cd_add_node, hty, h1, h2, hc, hs, hA, hB, hC, if_true]
          rw [e1, e2]
          exact cd_add_node_finish_congr v8 _ _ obj map type _ _ hc rfl hn hk
  · cases hC : v8.cd_strings_copy s.strings "" with
    | error e =>
      have e1 : cd_add_node v8 s obj map type = (cd_error e, s) := by
        simp only [cd_add_node, hty, hC, if_false]
      have e2 : cd_add_node v8 s' obj map type = (cd_error e, s') := by
        simp only [cd_add_node, hty, hs, hC, if_false]
      rw [e1, e2]
      exact ⟨rfl, hn, hk, hs⟩
    | ok r =>
      obtain ⟨idx, strings⟩ := r
      have e1 : cd_add_node v8 s obj map type =
          cd_add_node_finish v8 { s with strings := strings } obj map type
            cd_node_type_t.kCDNodeHidden idx := by
        simp only [cd_add_node, hty, hC, if_false]
      have e2 : cd_add_node v8 s' obj map type =
          cd_add_node_finish v8 { s' with strings := strings } obj map type
            cd_node_type_t.kCDNodeHidden idx := by
        simp only [cd_add_node, hty, hs, hC, if_false]
      rw [e1, e2]
      exact cd_add_node_finish_congr v8 _ _ obj map type _ _ hc rfl hn hk

/-- C20. Child-enqueue errors do not block materialization: when the visit of an
unvisited general-object or Map-kind object reaches the scan of its child range
(the map pointer is queued, the type is read, for a general object the size
lookup succeeds, and both ends of the range resolve), `cd_visit_root` returns
what `cd_add_node` returns on the state the scan leaves, and that return value,
the finished list and `node_count` are the same as those of `cd_add_node` on the
state before the scan, which is the state a scan of an empty range leaves,
whatever `cd_queue_space` returned. -/
theorem scan_result_ignored (v8 : cd_v8_t) (st : cd_state_t) (obj pmap ptype start end_ : Nat)
    (size : Int)
    (hp : V8_CORE_PTR st obj v8.cd_v8_class_HeapObject__map__Map = some pmap)
    (hz : ¬ (core_read st pmap &&& st.zap_bit = st.zap_bit))
    (hq : (cd_visit_root_mark v8 st pmap).1 = cd_ok)
    (hpt : V8_CORE_PTR st (core_read st pmap) v8.cd_v8_class_Map__instance_attributes__int
      = some ptype)
    (hns : ¬ ((core_read (cd_visit_root_mark v8 st pmap).2 ptype % 256 : Nat) : Int)
      < v8.cd_v8_FirstNonstringType)
    (hkind :
      (is_general_object v8
          ((core_read (cd_visit_root_mark v8 st pmap).2 ptype % 256 : Nat) : Int) = true ∧
        v8.cd_v8_get_obj_size (cd_visit_root_mark v8 st pmap).2.core (core_read st pmap)
          ((core_read (cd_visit_root_mark v8 st pmap).2 ptype % 256 : Nat) : Int)
          = Except.ok size ∧
        V8_CORE_PTR st obj v8.cd_v8_class_JSObject__properties__FixedArray = some start ∧
        V8_CORE_PTR st obj (v8.cd_v8_class_JSObject__properties__FixedArray + size)
          = some end_) ∨
      (is_general_object v8
          ((core_read (cd_visit_root_mark v8 st pmap).2 ptype % 256 : Nat) : Int) = false ∧
        ((core_read (cd_visit_root_mark v8 st pmap).2 ptype % 256 : Nat) : Int)
          = v8.cd_v8_type_Map__MAP_TYPE ∧
        V8_CORE_PTR st obj (v8.cd_v8_class_Map__instance_attributes__int + 4) = some start ∧
        V8_CORE_PTR st obj (v8.cd_v8_class_Map__instance_attributes__int + 4
          + st.ptr_size * 2) = some end_)) :
    cd_visit_root v8 st obj =
      cd_add_node v8 (cd_queue_space v8 (cd_visit_root_mark v8 st pmap).2 start end_).2 obj
        (core_read st pmap)
        ((core_read (cd_visit_root_mark v8 st pmap).2 ptype % 256 : Nat) : Int) ∧
    (cd_visit_root v8 st obj).1 =
      (cd_add_node v8 (cd_visit_root_mark v8 st pmap).2 obj (core_read st pmap)
        ((core_read (cd_visit_root_mark v8 st pmap).2 ptype % 256 : Nat) : Int)).1 ∧
    (cd_visit_root v8 st obj).2.nodes =
      (cd_add_node v8 (cd_visit_root_mark v8 st pmap).2 obj (core_read st pmap)
        ((core_read (cd_visit_root_mark v8 st pmap).2 ptype % 256 : Nat) : Int)).2.nodes ∧
    (cd_visit_root v8 st obj).2.node_count =
      (cd_add_node v8 (cd_visit_root_mark v8 st pmap).2 obj (core_read st pmap)
        ((core_read (cd_visit_root_mark v8 st pmap).2 ptype % 256 : Nat) : Int)).2.node_count ∧
    cd_queue_space v8 (cd_visit_root_mark v8 st pmap).2 start start
      = (cd_ok, (cd_visit_root_mark v8 st pmap).2) := by
  obtain ⟨-, -, -, hlen⟩ := cd_visit_root_mark_ok v8 st pmap hq
  have hptr : (cd_visit_root_mark v8 st pmap).2.ptr_size = st.ptr_size :=
    (cd_queue_ptr_frame v8 _ _).1.ptr_size
  have hcp : ∀ ptr off, V8_CORE_PTR (cd_visit_root_mark v8 st pmap).2 ptr off
      = V8_CORE_PTR st ptr off := V8_CORE_PTR_congr hlen
  have heq : cd_visit_root v8 st obj =
      cd_add_node v8 (cd_queue_space v8 (cd_visit_root_mark v8 st pmap).2 start end_).2 obj
        (core_read st pmap)
        ((core_read (cd_visit_root_mark v8 st pmap).2 ptype % 256 : Nat) : Int) := by
    rw [cd_visit_root_of_mark v8 st obj pmap hp hz, hq]
    simp only [cd_is_ok, cd_ok, Bool.not_true, Bool.false_eq_true, if_false]
    rcases hkind with ⟨hg, hsize, hs, he⟩ | ⟨hg, hm, hs, he⟩
    · exact (cd_visit_root_body_general v8 _ obj _ ptype size start end_
        (by rw [hcp]; exact hpt) hns hg hsize (by rw [hcp]; exact hs)
        (by rw [hcp]; exact he)).1
    · exact (cd_visit_root_body_map v8 _ obj _ ptype start end_
        (by rw [hcp]; exact hpt) hns hg hm (by rw [hcp]; exact hs)
        (by rw [hcp, hptr]; exact he)).1
  have hf := cd_queue_space_frame v8 (cd_visit_root_mark v8 st pmap).2 start end_
  have hstr : (cd_queue_space v8 (cd_visit_root_mark v8 st pmap).2 start end_).2.strings
      = (cd_visit_root_mark v8 st pmap).2.strings :=
    cd_queue_space_loop_strings v8 _ _ _ _ _
  have hc := cd_add_node_congr v8 (cd_visit_root_mark v8 st pmap).2
    (cd_queue_space v8 (cd_visit_root_mark v8 st pmap).2 start end_).2 obj (core_read st pmap)
    ((core_read (cd_visit_root_mark v8 st pmap).2 ptype % 256 : Nat) : Int)
    hf.1.core hstr hf.2.1 hf.2.2
  refine ⟨heq, by rw [heq]; exact hc.1, by rw [heq]; exact hc.2.1, by rw [heq]; exact hc.2.2.1,
    ?_⟩
  rw [cd_queue_space_unfold, if_neg (Nat.lt_irrefl _)]

set_option maxRecDepth 1000000 in
/-- C20, on the object at 64 of `gap_core`: the scan of its child range stops at
the first word with the not-an-object error, and the visit still returns
`cd_ok()` and makes the Node of 64, as `cd_add_node` does on the state before the
scan. -/
theorem scan_result_ignored_gap :
    (cd_queue_space demo_v8 (cd_visit_root_mark demo_v8 (demo_state gap_core []) 64).2 68 80).1
      = cd_error cd_error_code.kCDErrNotObject ∧
    (cd_visit_root demo_v8 (demo_state gap_core []) 64).1 = cd_ok ∧
    (cd_visit_root demo_v8 (demo_state gap_core []) 64).1 =
      (cd_add_node demo_v8 (cd_visit_root_mark demo_v8 (demo_state gap_core []) 64).2
        64 40 160).1 ∧
    (cd_visit_root demo_v8 (demo_state gap_core []) 64).2.nodes.map (fun n => n.obj) = [64] :=
  have h := scan_result_ignored demo_v8 (demo_state gap_core []) 64 64 48 68 80 12
    (by decide) (by decide) (by decide) (by decide) (by decide)
    (Or.inl ⟨by decide, rfl, by decide, by decide⟩)
  ⟨by decide, by decide, h.2.1, by decide⟩

/-! ## Cycle safety -/

/-- When the name of the object resolves (for a function the chain object ->
shared-metadata record -> name and its conversion, otherwise the interning of the
empty name) and the size lookup succeeds, `cd_add_node` returns `cd_ok()`. -/
theorem cd_add_node_ok (v8 : cd_v8_t) (s : cd_state_t) (obj map : Nat) (type size : Int)
    (hname :
      (type = v8.cd_v8_type_JSFunction__JS_FUNCTION_TYPE → ∃ psh pname idx strs,
        V8_CORE_PTR s obj v8.cd_v8_class_JSFunction__shared__SharedFunctionInfo = some psh ∧
        V8_CORE_PTR s (core_read s psh) v8.cd_v8_class_SharedFunctionInfo__name__Object
          = some pname ∧
        v8.cd_v8_to_cstr s.core s.strings (core_read s pname) = Except.ok (idx, strs)) ∧
      (type ≠ v8.cd_v8_type_JSFunction__JS_FUNCTION_TYPE → ∃ idx strs,
        v8.cd_strings_copy s.strings "" = Except.ok (idx, strs)))
    (hsize : v8.cd_v8_get_obj_size s.core map type = Except.ok size) :
    (cd_add_node v8 s obj map type).1 = cd_ok := by
  have hfin : ∀ (strs : List String) (kind : cd_node_type_t) (idx : Int),
      (cd_add_node_finish v8 { s with strings := strs } obj map type kind idx).1 = cd_ok := by
    intro strs kind idx
    have hsize' : v8.cd_v8_get_obj_size ({ s with strings := strs } : cd_state_t).core map type
        = Except.ok size := hsize
    simp only [cd_add_node_finish, hsize']
  by_cases hty : type = v8.cd_v8_type_JSFunction__JS_FUNCTION_TYPE
  · obtain ⟨psh, pname, idx, strs, h1, h2, h3⟩ := hname.1 hty
    have heq : cd_add_node v8 s obj map type =
        cd_add_node_finish v8 { s with strings := strs } obj map type
          cd_node_type_t.kCDNodeClosure idx := by
      simp only [cd_add_node, hty, h1, h2, h3, if_true]
    rw [heq]
    exact hfin _ _ _
  · obtain ⟨idx, strs, h1⟩ := hname.2 hty
    have heq : cd_add_node v8 s obj map type =
        cd_add_node_finish v8 { s with strings := strs } obj map type
          cd_node_type_t.kCDNodeHidden idx := by
      simp only [cd_add_node, hty, h1, if_false]
    rw [heq]
    exact hfin _ _ _

/-- C13, amended. Cycle safety: for an object X of a general-object kind with a
well-formed map (the map field of X is readable and not zapped, the map pointer
is heap-object-shaped and its queue entry is allocated, the type tag, the size
and both ends of the child range resolve) whose name resolves (for a function the
chain object -> shared-metadata record -> name and its conversion, for the other
kinds the interning of the empty name), whatever its child words are, so also
when its only heap-object-shaped child word is X itself, and a work queue holding
X with an empty finished list: the first visit of X succeeds, `cd_visit_roots`
terminates, and the finished list contains exactly one Node whose address is X.
Here `st1` is the image with the map field of X zapped, which is the image the
visit reads the type, the size and the name from. -/
theorem cycle_safety (v8 : cd_v8_t) (st st1 : cd_state_t) (X pmap map ptype start end_ : Nat)
    (type size : Int)
    (hq : st.queue = [X]) (hn : st.nodes = [])
    (hp : V8_CORE_PTR st X v8.cd_v8_class_HeapObject__map__Map = some pmap)
    (hmap : map = core_read st pmap)
    (hz : ¬ (map &&& st.zap_bit = st.zap_bit))
    (hshape : v8.V8_IS_HEAPOBJECT map = true)
    (hmalloc : v8.malloc st.mallocs = true)
    (h1 : st1 = core_write st pmap (map ||| st.zap_bit))
    (hpt : V8_CORE_PTR st map v8.cd_v8_class_Map__instance_attributes__int = some ptype)
    (htype : type = ((core_read st1 ptype % 256 : Nat) : Int))
    (hns : ¬ type < v8.cd_v8_FirstNonstringType)
    (hg : is_general_object v8 type = true)
    (hsize : v8.cd_v8_get_obj_size st1.core map type = Except.ok size)
    (hs : V8_CORE_PTR st X v8.cd_v8_class_JSObject__properties__FixedArray = some start)
    (he : V8_CORE_PTR st X (v8.cd_v8_class_JSObject__properties__FixedArray + size)
      = some end_)
    (hname :
      (type = v8.cd_v8_type_JSFunction__JS_FUNCTION_TYPE → ∃ psh pname idx strs,
        V8_CORE_PTR st X v8.cd_v8_class_JSFunction__shared__SharedFunctionInfo = some psh ∧
        V8_CORE_PTR st (core_read st1 psh) v8.cd_v8_class_SharedFunctionInfo__name__Object
          = some pname ∧
        v8.cd_v8_to_cstr st1.core st.strings (core_read st1 pname) = Except.ok (idx, strs)) ∧
      (type ≠ v8.cd_v8_type_JSFunction__JS_FUNCTION_TYPE → ∃ idx strs,
        v8.cd_strings_copy st.strings "" = Except.ok (idx, strs))) :
    (cd_visit_root v8 (set_queue st []) X).1 = cd_ok ∧
    (∃ n, ((cd_visit_roots_step v8)^[n] st).queue = [] ∧
      cd_visit_roots v8 st = (cd_ok, (cd_visit_roots_step v8)^[n] st)) ∧
    ((cd_visit_roots v8 st).2.nodes.map (fun n => n.obj)).count X = 1 := by
  subst hmap h1 htype
  have hp' : V8_CORE_PTR (set_queue st []) X v8.cd_v8_class_HeapObject__map__Map
      = some pmap := hp
  have hz' : ¬ (core_read (set_queue st []) pmap &&& (set_queue st []).zap_bit
      = (set_queue st []).zap_bit) := hz
  -- the state after the map field is zapped and the map pointer queued
  have hmark : (cd_visit_root_mark v8 (set_queue st []) pmap).1 = cd_ok := by
    have hmal : (core_write (set_queue st []) pmap
        (core_read (set_queue st []) pmap ||| (set_queue st []).zap_bit)).mallocs
        = st.mallocs := rfl
    have hsh : v8.V8_IS_HEAPOBJECT (core_read (set_queue st []) pmap) = true := hshape
    simp [cd_visit_root_mark, cd_queue_ptr, hsh, hmal, hmalloc]
  have hmcore : (cd_visit_root_mark v8 (set_queue st []) pmap).2.core
      = (core_write st pmap (core_read st pmap ||| st.zap_bit)).core :=
    (cd_queue_ptr_frame v8 _ _).1.core
  have hmstr : (cd_visit_root_mark v8 (set_queue st []) pmap).2.strings = st.strings :=
    cd_queue_ptr_strings v8 _ _
  have hmlen : (cd_visit_root_mark v8 (set_queue st []) pmap).2.core.mem.length
      = st.core.mem.length := by
    rw [hmcore]; simp [core_write]
  have hmread : ∀ p, core_read (cd_visit_root_mark v8 (set_queue st []) pmap).2 p
      = core_read (core_write st pmap (core_read st pmap ||| st.zap_bit)) p :=
    core_read_congr hmcore
  have hmptr : ∀ ptr off, V8_CORE_PTR (cd_visit_root_mark v8 (set_queue st []) pmap).2 ptr off
      = V8_CORE_PTR st ptr off := V8_CORE_PTR_congr hmlen
  -- the visit reaches the scan and ends in `cd_add_node`
  have hbody := (cd_visit_root_body_general v8 (cd_visit_root_mark v8 (set_queue st []) pmap).2
    X (core_read st pmap) ptype size start end_
    (by rw [hmptr]; exact hpt) (by rw [hmread]; exact hns) (by rw [hmread]; exact hg)
    (by rw [hmread, hmcore]; exact hsize) (by rw [hmptr]; exact hs)
    (by rw [hmptr]; exact he)).1
  have hvisit : cd_visit_root v8 (set_queue st []) X =
      cd_add_node v8 (cd_queue_space v8 (cd_visit_root_mark v8 (set_queue st []) pmap).2
        start end_).2 X (core_read st pmap)
        ((core_read (cd_visit_root_mark v8 (set_queue st []) pmap).2 ptype % 256 : Nat) : Int)
      := by
    rw [cd_visit_root_of_mark v8 (set_queue st []) X pmap hp' hz', hmark]
    simp only [cd_is_ok, cd_ok, Bool.not_true, Bool.false_eq_true, if_false]
    exact hbody
  -- the scan leaves the image and the string table alone
  have hscore : (cd_queue_space v8 (cd_visit_root_mark v8 (set_queue st []) pmap).2
      start end_).2.core = (core_write st pmap (core_read st pmap ||| st.zap_bit)).core :=
    (cd_queue_space_frame v8 _ start end_).1.core.trans hmcore
  have hsstr : (cd_queue_space v8 (cd_visit_root_mark v8 (set_queue st []) pmap).2
      start end_).2.strings = st.strings :=
    (cd_queue_space_loop_strings v8 _ _ _ _ _).trans hmstr
  have hsread : ∀ p, core_read (cd_queue_space v8
      (cd_visit_root_mark v8 (set_queue st []) pmap).2 start end_).2 p
      = core_read (core_write st pmap (core_read st pmap ||| st.zap_bit)) p :=
    core_read_congr hscore
  have hsptr : ∀ ptr off, V8_CORE_PTR (cd_queue_space v8
      (cd_visit_root_mark v8 (set_queue st []) pmap).2 start end_).2 ptr off
      = V8_CORE_PTR st ptr off :=
    V8_CORE_PTR_congr (by rw [hscore]; simp [core_write])
  have hok : (cd_visit_root v8 (set_queue st []) X).1 = cd_ok := by
    rw [hvisit, hmread]
    apply cd_add_node_ok v8 _ X (core_read st pmap) _ size
    · refine ⟨fun hty => ?_, fun hty => ?_⟩
      · obtain ⟨psh, pname, idx, strs, e1, e2, e3⟩ := hname.1 hty
        refine ⟨psh, pname, idx, strs, by rw [hsptr]; exact e1, ?_, ?_⟩
        · rw [hsptr, hsread]; exact e2
        · rw [hscore, hsstr, hsread]; exact e3
      · obtain ⟨idx, strs, e1⟩ := hname.2 hty
        exact ⟨idx, strs, by rw [hsstr]; exact e1⟩
    · rw [hscore]; exact hsize
  have hzap : Zapped v8 st := ⟨by rw [hn]; simp, by rw [hn]; simp⟩
  exact ⟨hok, cd_visit_roots_eq v8 st, count_one_of_first_visit v8 st X [] hq hzap hok⟩

set_option maxRecDepth 1000000 in
/-- C13, amended, on `cycle_core`: the object X at 64 is of kind `JS_OBJECT`
(type tag 160 in its map at 40, size 12, child range from 68 to 80) and its only
heap-object-shaped child word is 64 itself. The first visit of X succeeds and
queues X again through its own slot; the run ends after five iterations with
exactly one Node for X (and one for its map and one for the meta map). -/
theorem cycle_safety_self_loop :
    child_words (demo_state cycle_core []) 4 12 68 80 = [64, 0, 0] ∧
    (cd_visit_root demo_v8 (demo_state cycle_core []) 64).2.queue = [40, 64] ∧
    (cd_visit_roots demo_v8 (demo_state cycle_core [64])).1 = cd_ok ∧
    ((cd_visit_roots demo_v8 (demo_state cycle_core [64])).2.nodes.map
      (fun n => n.obj)).count 64 = 1 ∧
    ((cd_visit_roots_step demo_v8)^[5] (demo_state cycle_core [64])).nodes.map (fun n => n.obj)
      = [64, 40, 16] :=
  have h := cycle_safety demo_v8 (demo_state cycle_core [64])
    (core_write (demo_state cycle_core [64]) 64 (40 ||| 2)) 64 64 40 48 68 80 160 12
    rfl rfl (by decide) (by decide) (by decide) (by decide) (by decide) rfl (by decide)
    (by decide) (by decide) (by decide) rfl (by decide) (by decide)
    ⟨fun hty => absurd hty (by decide), fun _ => ⟨0, [""], rfl⟩⟩
  ⟨by decide, by decide, (cd_visit_roots_ok demo_v8 (demo_state cycle_core [64])).1, h.2.2,
    by decide⟩

end Core2Dump
